import Mathlib

/-!
Verification of the Floresta peer-to-peer synchronization engine against its
natural-language specification.

The development shallowly embeds the relevant Rust code:
  * `crates/floresta-compact-filters/src/lib.rs` (HeaderOffset, FlatFilterStore),
  * `crates/floresta-wire/src/p2p_wire/node/swift_sync_ctx.rs`
    (SwiftSync finalization, invalid-block handling, Hints parsing),
  * `crates/floresta-wire/src/p2p_wire/address_man.rs` (AddressMan).
Machine integers are modelled as `Nat` with explicit `% 2 ^ w` where overflow
matters; fallible operations return `Option`/`Except`.
-/

set_option linter.unusedVariables false

/-! ## Byte-level helpers -/

/-- Little-endian decoding of a byte list, least significant byte first. -/
def fromLe (l : List Nat) : Nat :=
  l.foldr (fun b acc => b + 256 * acc) 0

/-- Little-endian encoding of `v` into `n` bytes. -/
def toLe : Nat → Nat → List Nat
  | 0, _ => []
  | n + 1, v => (v % 256) :: toLe n (v / 256)

/-! ## Compact-filter flat store
    Embedding of `crates/floresta-compact-filters/src/lib.rs`. -/

/-- `HeaderOffset` from floresta-compact-filters: a presence flag plus a byte
offset into the sidecar data file.  `offset` models a `u64`. -/
structure HeaderOffset where
  present : Bool
  offset : Nat
deriving DecidableEq, Repr

/-- `HeaderOffset::to_u64`: 0 when absent, otherwise `(1 << 63) | offset`. -/
def HeaderOffset.to_u64 (x : HeaderOffset) : Nat :=
  if !x.present then 0
  else 2 ^ 63 ||| x.offset

/-- `HeaderOffset::from_u64`: reads the presence flag from bit 63 and the
offset from the low 63 bits (`value & !(1 << 63)`). -/
def HeaderOffset.from_u64 (value : Nat) : Option HeaderOffset :=
  if value &&& 2 ^ 63 = 0 then none
  else some ⟨true, value &&& (2 ^ 63 - 1)⟩

/-- A `FilterHeader` is a 32-byte hash; we model it as its byte list. -/
abbrev FilterHeader := List Nat

/-- `FilterDescriptor`: a filter header together with its (optional) offset. -/
structure FilterDescriptor where
  header : FilterHeader
  offset : HeaderOffset
deriving DecidableEq, Repr

/-- `FilterDescriptor::FILTER_DESCRIPTOR_SIZE = 32 + 8`. -/
def FILTER_DESCRIPTOR_SIZE : Nat := 32 + 8

/-- The error type of the flat filter store. -/
inductive FlatFilterStoreError where
  | notFound
  | bitcoinIo
  | stdIo
  | encode
  | poison
  | corruptedFile
deriving DecidableEq, Repr

/-- `FlatFilterStore`: the backing file (as bytes) plus the cached `len : u32`
field maintained by the Rust struct. -/
structure FlatFilterStore where
  file : List Nat
  len : Nat
deriving DecidableEq, Repr

/-- `Decodable for FilterDescriptor` at a byte position: 32 header bytes, then
a little-endian `u64` which is turned into a `HeaderOffset` (decoding falls
back to `{present: false, offset: 0}` when `from_u64` returns `None`).
Returns `none` when fewer than 40 bytes are available, as `consensus_decode`
errors at EOF. -/
def consensusDecodeDescriptor (bytes : List Nat) (pos : Nat) : Option FilterDescriptor :=
  if pos + FILTER_DESCRIPTOR_SIZE ≤ bytes.length then
    some ⟨(bytes.drop pos).take 32,
          (HeaderOffset.from_u64 (fromLe ((bytes.drop (pos + 32)).take 8))).getD ⟨false, 0⟩⟩
  else none

/-- `FlatFilterStore::read_descriptor_at`. -/
def FlatFilterStore.read_descriptor_at (s : FlatFilterStore) (offset : Nat) :
    Except FlatFilterStoreError FilterDescriptor :=
  if s.len ≤ offset then .error .notFound
  else
    match consensusDecodeDescriptor s.file offset with
    | some d => .ok d
    | none => .error .encode

/-- `FlatFilterStore::read_descriptor_by_height`.  The byte offset is the
`u32` product `height * FILTER_DESCRIPTOR_SIZE`, which wraps modulo `2 ^ 32`
(release-mode Rust semantics). -/
def FlatFilterStore.read_descriptor_by_height (s : FlatFilterStore) (height : Nat) :
    Except FlatFilterStoreError FilterDescriptor :=
  if s.len % FILTER_DESCRIPTOR_SIZE ≠ 0 ∧ s.len ≠ 0 then .error .corruptedFile
  else s.read_descriptor_at (height * FILTER_DESCRIPTOR_SIZE % 2 ^ 32)

/-- `FilterHeadersStore::get_filter_header` for `FlatFilterStore`. -/
def FlatFilterStore.get_filter_header (s : FlatFilterStore) (height : Nat) :
    Except FlatFilterStoreError FilterHeader :=
  (s.read_descriptor_by_height height).map (fun d => d.header)

/-! ## Address states
    Embedding of `AddressState` from `p2p_wire/address_man.rs`. -/

/-- `AddressState`: our local view of a peer address. -/
inductive AddressState where
  | neverTried
  | tried (t : Nat)
  | banned (t : Nat)
  | connected
  | failed (t : Nat)
deriving DecidableEq, Repr

/-- `RETRY_TIME = 10 * 60` seconds (address_man.rs). -/
def RETRY_TIME : Nat := 10 * 60

/-- `ASSUME_STALE = 24 * 60 * 60` seconds (address_man.rs). -/
def ASSUME_STALE : Nat := 24 * 60 * 60

/-- The per-state demotion rule applied by `AddressMan::rearrange_buckets`
to each stored address, at current Unix time `now`. -/
def rearrangeState (now : Nat) : AddressState → AddressState
  | .banned ban_time => if ban_time < now then .neverTried else .banned ban_time
  | .tried tried_time =>
    if tried_time + ASSUME_STALE < now then .neverTried else .tried tried_time
  | .failed failed_time =>
    if failed_time + RETRY_TIME < now then .neverTried else .failed failed_time
  | .connected => .connected
  | .neverTried => .neverTried

/-! ## SwiftSync finalization and invalid-block handling
    Embedding of `p2p_wire/node/swift_sync_ctx.rs`. -/

/-- Modelled from the spec: `SwiftSyncAgg` (from floresta-chain, not under
src/) is a commutative-group aggregator — XOR over 64-bit words suffices —
modelled as a natural number whose identity element is 0. -/
abbrev SwiftSyncAgg := Nat

/-- Modelled from the spec: `SwiftSyncAgg::is_zero` tests for the identity
element of the aggregator group. -/
def SwiftSyncAgg.is_zero (a : SwiftSyncAgg) : Bool := a == 0

/-- The `SwiftSync` node context: the aggregator, the accumulated unspent
supply (in satoshis) and the abort height, if any. -/
structure SwiftSyncCtx where
  agg : SwiftSyncAgg
  supply : Nat
  abort_height : Option Nat
deriving DecidableEq, Repr

/-- Result of `handle_stop_height_reached`: the updated context together with
flags recording whether `chain.mark_chain_as_assumed(Stump::new(), tip)` and
`chain.toggle_ibd(false)` were invoked. -/
structure StopHeightOutcome where
  ctx : SwiftSyncCtx
  mark_chain_as_assumed_empty_acc : Bool
  toggle_ibd_off : Bool
deriving DecidableEq, Repr

/-- `handle_stop_height_reached` from swift_sync_ctx.rs.  The consensus
`max_supply_at_height` function lives in floresta-chain (not under src/) and
is passed as a parameter. -/
def handle_stop_height_reached (max_supply_at_height : Nat → Nat)
    (c : SwiftSyncCtx) (stop_height : Nat) : StopHeightOutcome :=
  if !c.agg.is_zero then
    ⟨{ c with abort_height := some stop_height }, false, false⟩
  else if max_supply_at_height stop_height < c.supply then
    ⟨{ c with abort_height := some stop_height }, false, false⟩
  else
    ⟨c, true, true⟩

/-- `BlockValidationErrors` from floresta-chain, with the exact variant set
matched by `handle_invalid_block` (payloads are irrelevant here and dropped). -/
inductive BlockValidationErrors where
  | invalidCoinbase
  | utxoNotFound
  | scriptValidationError
  | nullPrevOut
  | emptyInputs
  | emptyOutputs
  | scriptError
  | blockTooBig
  | notEnoughPow
  | tooManyCoins
  | badMerkleRoot
  | badWitnessCommitment
  | notEnoughMoney
  | firstTxIsNotCoinbase
  | badCoinbaseOutValue
  | emptyBlock
  | badBip34
  | bip94TimeWarp
  | unspendableUTXO
  | coinbaseNotMatured
  | invalidProof
  | blockExtendsAnOrphanChain
  | blockDoesntExtendTip
deriving DecidableEq, Repr

/-- `BlockchainError`: either a block-validation error or any other error of
the chain backend. -/
inductive BlockchainError where
  | blockValidation (e : BlockValidationErrors)
  | other
deriving DecidableEq, Repr

/-- The orphan arms of the match in `handle_invalid_block`, which log a bug
and return `Ok(())` early. -/
def isOrphanError : BlockValidationErrors → Bool
  | .blockExtendsAnOrphanChain | .blockDoesntExtendTip => true
  | _ => false

/-- The match arms of `handle_invalid_block` that call
`chain.invalidate_block` (everything except `InvalidProof` and the two
orphan variants). -/
def invalidatesBlock : BlockValidationErrors → Bool
  | .invalidCoinbase | .utxoNotFound | .scriptValidationError | .nullPrevOut
  | .emptyInputs | .emptyOutputs | .scriptError | .blockTooBig | .notEnoughPow
  | .tooManyCoins | .badMerkleRoot | .badWitnessCommitment | .notEnoughMoney
  | .firstTxIsNotCoinbase | .badCoinbaseOutValue | .emptyBlock | .badBip34
  | .bip94TimeWarp | .unspendableUTXO | .coinbaseNotMatured => true
  | .invalidProof => false
  | .blockExtendsAnOrphanChain | .blockDoesntExtendTip => false

/-- Effects of `handle_invalid_block`: whether `chain.invalidate_block` ran,
the `address_man.update_set_state` call issued for the peer (address id and
new state), whether a `Shutdown` request was sent, and whether the function
returned `Err(PeerMisbehaving)`. -/
structure InvalidBlockOutcome where
  invalidate_block_called : Bool
  ban_call : Option (Nat × AddressState)
  shutdown_sent : Bool
  returned_err : Bool
deriving DecidableEq, Repr

/-- `handle_invalid_block` from swift_sync_ctx.rs.  `ban_time` is the
`SwiftSync::BAN_TIME` constant (defined in node_context.rs, outside src/);
`peer_address_id` is `self.peers.get(&peer).map(|p| p.address_id)`. -/
def handle_invalid_block (ban_time : Nat) (peer_address_id : Option Nat)
    (e : BlockchainError) : InvalidBlockOutcome :=
  match e with
  | .blockValidation v =>
    if isOrphanError v then
      ⟨false, none, false, false⟩
    else
      ⟨invalidatesBlock v,
        peer_address_id.map (fun aid => (aid, AddressState.banned ban_time)),
        true, true⟩
  | .other =>
    ⟨false, peer_address_id.map (fun aid => (aid, AddressState.banned ban_time)),
      true, true⟩

/-! ## SwiftSync hints file
    Embedding of `Hints` from `p2p_wire/node/swift_sync_ctx.rs`. -/

/-- `Read::read_exact` on a byte file with an explicit cursor: reads exactly
`n` bytes at `pos`, failing (like the unwrapped panic) when fewer than `n`
bytes remain. -/
def readExact (file : List Nat) (pos n : Nat) : Option (List Nat × Nat) :=
  if ((file.drop pos).take n).length = n then some ((file.drop pos).take n, pos + n)
  else none

/-- Key lookup in an association list, modelling map retrieval. -/
def lookupA {α : Type} (l : List (Nat × α)) (k : Nat) : Option α :=
  (l.find? (fun p => p.1 == k)).map (fun p => p.2)

/-- Map insertion on an association list: replaces the value under an
existing key, appends a fresh binding otherwise. -/
def insertA {α : Type} (l : List (Nat × α)) (k : Nat) (v : α) : List (Nat × α) :=
  if (l.find? (fun p => p.1 == k)).isSome then
    l.map (fun p => if p.1 == k then (k, v) else p)
  else l ++ [(k, v)]

/-- The `Hints` struct: the height-to-offset table, the backing file and its
cursor, and the stop height. -/
structure Hints where
  map : List (Nat × Nat)
  file : List Nat
  pos : Nat
  stop_height : Nat
deriving DecidableEq, Repr

/-- The record loop of `Hints::from_file`: reads `n` consecutive
`(height: u32, offset: u64)` little-endian pairs, inserting each into the
map. -/
def readRecords (file : List Nat) : Nat → Nat → List (Nat × Nat) →
    Option (List (Nat × Nat) × Nat)
  | 0, pos, m => some (m, pos)
  | n + 1, pos, m =>
    match readExact file pos 4 with
    | none => none
    | some (hb, pos1) =>
      match readExact file pos1 8 with
      | none => none
      | some (ob, pos2) => readRecords file n pos2 (insertA m (fromLe hb) (fromLe ob))

/-- `Hints::from_file`: checks the `UTXO` magic and version 0, reads the
little-endian `stop_height`, then reads `stop_height` table records.  The
panics of the source are modelled as `none`. -/
def Hints.from_file (file : List Nat) : Option Hints :=
  match readExact file 0 4 with
  | none => none
  | some (magic, pos0) =>
    if magic ≠ [0x55, 0x54, 0x58, 0x4f] then none
    else
      match readExact file pos0 1 with
      | none => none
      | some (ver, pos1) =>
        if ver ≠ [0x00] then none
        else
          match readExact file pos1 4 with
          | none => none
          | some (shb, pos2) =>
            match readRecords file (fromLe shb) pos2 [] with
            | none => none
            | some (m, pos3) => some ⟨m, file, pos3, fromLe shb⟩

/-- The bit-collection loop of `Hints::get_indexes`: a fresh byte is read
every 8 bit positions; positions whose bit is set are collected in
increasing order.  Arguments: remaining bits, current `bit_pos`, current
byte, file cursor. -/
def readBitsLoop (file : List Nat) : Nat → Nat → Nat → Nat → Option (List Nat × Nat)
  | 0, _, _, pos => some ([], pos)
  | remaining + 1, bit_pos, curr_byte, pos =>
    if bit_pos % 8 == 0 then
      match readExact file pos 1 with
      | none => none
      | some (b, pos1) =>
        match readBitsLoop file remaining (bit_pos + 1) (b.headD 0) pos1 with
        | none => none
        | some (l, pos2) =>
          some (if (b.headD 0 >>> (bit_pos % 8)) &&& 1 == 1 then bit_pos :: l else l, pos2)
    else
      match readBitsLoop file remaining (bit_pos + 1) curr_byte pos with
      | none => none
      | some (l, pos2) =>
        some (if (curr_byte >>> (bit_pos % 8)) &&& 1 == 1 then bit_pos :: l else l, pos2)

/-- The read performed by `get_indexes` after seeking to the stored offset:
the `num_bits: u32` header followed by the bitmap bits. -/
def readBitmap (file : List Nat) (file_pos : Nat) : Option (List Nat × Nat) :=
  match readExact file file_pos 4 with
  | none => none
  | some (bits_arr, pos) => readBitsLoop file (fromLe bits_arr) 0 0 pos

/-- `Hints::get_indexes`: looks the height up in the table, seeks to the
stored file offset and decodes the bitmap there, returning the indexes of
set bits.  The panics of the source are modelled as a `none` result; the
second component is the mutated `Hints` (only the cursor moves). -/
def Hints.get_indexes (h : Hints) (height : Nat) : Option (List Nat) × Hints :=
  match lookupA h.map height with
  | none => (none, h)
  | some file_pos =>
    match readBitmap h.file file_pos with
    | none => (none, { h with pos := file_pos })
    | some (unspents, pos2) => (some unspents, { h with pos := pos2 })

/-- The binary table region of a hints file holding one record per height
`start, start+1, …, start+n-1`, with offsets given by `off` — the layout
specified in §6 of the spec. -/
def hintsTable (off : Nat → Nat) : Nat → Nat → List Nat
  | _, 0 => []
  | start, n + 1 => toLe 4 start ++ toLe 8 (off start) ++ hintsTable off (start + 1) n

/-- A well-formed hints file for `stop_height`: `UTXO` magic, version 0, the
stop height, one table record per height `1..=stop_height`, then the bitmap
region `body`. -/
def mkHintsFile (stop_height : Nat) (off : Nat → Nat) (body : List Nat) : List Nat :=
  [0x55, 0x54, 0x58, 0x4f] ++ [0x00] ++ toLe 4 stop_height ++
    hintsTable off 1 stop_height ++ body

/-- The association list of table entries for heights `start..start+n-1`. -/
def tableMap (off : Nat → Nat) : Nat → Nat → List (Nat × Nat)
  | _, 0 => []
  | start, n + 1 => (start, off start) :: tableMap off (start + 1) n

/-! ## Address manager
    Embedding of `AddressMan` from `p2p_wire/address_man.rs`.  The Rust
    `HashMap`s become association lists; `SystemTime::now()` and
    `rand::random()` become explicit `now` / random-draw parameters. -/

/-- `ServiceFlags::NODE_NETWORK`. -/
def SF_NETWORK : Nat := 1

/-- `ServiceFlags::NODE_WITNESS`. -/
def SF_WITNESS : Nat := 8

/-- `ServiceFlags::NODE_COMPACT_FILTERS`. -/
def SF_COMPACT_FILTERS : Nat := 64

/-- `ServiceFlags::NODE_NETWORK_LIMITED`. -/
def SF_NETWORK_LIMITED : Nat := 1024

/-- floresta-common `service_flags::UTREEXO = 1 << 24` (declared outside
src/; value per the spec's service-flag glossary and the `1 << 25`
`UTREEXO_FILTER` sibling in address_man.rs). -/
def SF_UTREEXO : Nat := 2 ^ 24

/-- `UTREEXO_FILTER = 1 << 25` (address_man.rs, `update_set_state`). -/
def SF_UTREEXO_FILTER : Nat := 2 ^ 25

/-- `ServiceFlags::NONE` — the empty mask, meaning "any peer". -/
def SF_NONE : Nat := 0

/-- `ServiceFlags::has`: `(self.0 & flags.0) == flags.0`. -/
def hasFlag (services flag : Nat) : Bool := services &&& flag == flag

/-- `AddrV2` address families.  IPv4 is four octets, IPv6/CJDNS are 16-byte
addresses, Tor and I2P carry opaque keys. -/
inductive AddrV2 where
  | ipv4 (o0 o1 o2 o3 : Nat)
  | ipv6 (b : List Nat)
  | torV2 (k : List Nat)
  | torV3 (k : List Nat)
  | i2p (k : List Nat)
  | cjdns (b : List Nat)
  | unknown (net : Nat) (payload : List Nat)
deriving DecidableEq, Repr

/-- `LocalAddress` from address_man.rs. -/
structure LocalAddress where
  address : AddrV2
  last_connected : Nat
  state : AddressState
  services : Nat
  port : Nat
  id : Nat
deriving DecidableEq, Repr

/-- Octet access on a byte list (16-byte IPv6/CJDNS addresses). -/
def oct (b : List Nat) (i : Nat) : Nat := b.getD i 0

/-- Rust `Ipv6Addr::is_unspecified`: all sixteen octets are zero. -/
def ipv6_is_unspecified (b : List Nat) : Bool :=
  (List.range 16).all (fun i => oct b i == 0)

/-- Rust `Ipv6Addr::is_loopback`: `::1`. -/
def ipv6_is_loopback (b : List Nat) : Bool :=
  (List.range 15).all (fun i => oct b i == 0) && oct b 15 == 1

/-- `AddressMan::is_routable_ipv4`, with the Rust std predicates
(`is_loopback` = 127/8, `is_broadcast` = 255.255.255.255, `is_private` =
10/8 ∪ 172.16/12 ∪ 192.168/16, `is_link_local` = 169.254/16,
`is_documentation` = the three RFC 5737 /24 nets) expanded inline. -/
def is_routable_ipv4 (o0 o1 o2 o3 : Nat) : Bool :=
  if o0 == 0 then false
  else if (o0 == 127) || (o0 == 255 && o1 == 255 && o2 == 255 && o3 == 255) ||
      ((o0 == 10) || (o0 == 172 && decide (16 ≤ o1) && decide (o1 ≤ 31)) ||
        (o0 == 192 && o1 == 168)) then false
  else if o0 == 198 && (o1 == 18 || o1 == 19) then false
  else if o0 == 169 && o1 == 254 then false
  else if o0 == 100 && (decide (64 ≤ o1) && decide (o1 ≤ 127)) then false
  else if (o0 == 192 && o1 == 0 && o2 == 2) || (o0 == 198 && o1 == 51 && o2 == 100) ||
      (o0 == 203 && o1 == 0 && o2 == 113) then false
  else true

/-- `AddressMan::is_routable_ipv6`, with `is_unspecified`, `is_loopback`
and `is_unique_local` (`octet[0] & 0xfe == 0xfc`) expanded. -/
def is_routable_ipv6 (b : List Nat) : Bool :=
  if ipv6_is_unspecified b || ipv6_is_loopback b || ((oct b 0 &&& 0xfe) == 0xfc) then false
  else if oct b 0 == 0x20 && oct b 1 == 0x01 && oct b 2 == 0x00 &&
      ((oct b 3 &&& 0xF0) == 0x10) then false
  else if oct b 0 == 0xFE && ((oct b 1 &&& 0xC0) == 0x80) then false
  else if oct b 0 == 0x20 && oct b 1 == 0x01 && oct b 2 == 0x00 &&
      ((oct b 3 &&& 0xF0) == 0x20) then false
  else true

/-- `AddressMan::is_routable` (also reachable as `LocalAddress::is_routable`
through `push_addresses`): match on the address family. -/
def is_routable_addr : AddrV2 → Bool
  | .ipv4 o0 o1 o2 o3 => is_routable_ipv4 o0 o1 o2 o3
  | .ipv6 b => is_routable_ipv6 b
  | .cjdns b => if oct b 0 == 0xFC then true else false
  | _ => true

/-- `is_routable` applied to a stored address. -/
def LocalAddress.is_routable (a : LocalAddress) : Bool := is_routable_addr a.address

/-- `ReachableNetworks` from address_man.rs. -/
inductive ReachableNetworks where
  | ipv4
  | ipv6
  | torV3
  | i2p
  | cjdns
deriving DecidableEq, Repr

/-- `MAX_ADDRESSES = 50_000`. -/
def MAX_ADDRESSES : Nat := 50000

/-- `AddressMan`: the address map plus the good / per-service indices. -/
structure AddressMan where
  addresses : List (Nat × LocalAddress)
  good_addresses : List Nat
  good_peers_by_service : List (Nat × List Nat)
  peers_by_service : List (Nat × List Nat)
  max_size : Nat
  reachable_networks : List ReachableNetworks
deriving DecidableEq, Repr

/-- `AddressMan::new`. -/
def AddressMan.new (max_size : Option Nat) (reachable : List ReachableNetworks) : AddressMan :=
  ⟨[], [], [], [], max_size.getD MAX_ADDRESSES, reachable⟩

/-- `AddressMan::is_net_reachable`: the wildcard arm covers TorV2, CJDNS and
Unknown, which are never reachable. -/
def AddressMan.is_net_reachable (am : AddressMan) (address : LocalAddress) : Bool :=
  match address.address with
  | .ipv4 _ _ _ _ => am.reachable_networks.contains .ipv4
  | .ipv6 _ => am.reachable_networks.contains .ipv6
  | .torV3 _ => am.reachable_networks.contains .torV3
  | .i2p _ => am.reachable_networks.contains .i2p
  | _ => false

/-- `AddressMan::is_good_peer`: routable and `Connected` or `Tried`. -/
def is_good_peer (address : LocalAddress) : Bool :=
  if !address.is_routable then false
  else
    match address.state with
    | .connected => true
    | .tried _ => true
    | _ => false

/-- Modify the value stored under a key of an association list, leaving the
list unchanged when the key is absent (`HashMap::get_mut` semantics). -/
def modifyA {α : Type} (l : List (Nat × α)) (k : Nat) (f : α → α) : List (Nat × α) :=
  l.map (fun p => if p.1 == k then (p.1, f p.2) else p)

/-- `map.entry(s).or_default().push(id)` on a service bucket map. -/
def bucketPush (m : List (Nat × List Nat)) (s id : Nat) : List (Nat × List Nat) :=
  if (lookupA m s).isSome then modifyA m s (fun l => l ++ [id])
  else m ++ [(s, [id])]

/-- `for peers in map.values_mut() { peers.retain(|&x| x != id) }`. -/
def bucketsRetainAll (m : List (Nat × List Nat)) (id : Nat) : List (Nat × List Nat) :=
  m.map (fun p => (p.1, p.2.filter (fun x => x != id)))

/-- `AddressMan::push_if_has_service`. -/
def AddressMan.push_if_has_service (am : AddressMan) (address : LocalAddress)
    (service : Nat) : AddressMan :=
  if hasFlag address.services service then
    let am1 :=
      if is_good_peer address then
        { am with good_peers_by_service :=
            bucketPush am.good_peers_by_service service address.id }
      else am
    { am1 with peers_by_service := bucketPush am1.peers_by_service service address.id }
  else am

/-- Stable insertion into a list sorted by the `last_connected` component. -/
def insertByTime (x : Nat × Nat) : List (Nat × Nat) → List (Nat × Nat)
  | [] => [x]
  | y :: ys => if x.2 < y.2 then x :: y :: ys else y :: insertByTime x ys

/-- `sort_by_key(last_connected)` used by `prune_addresses`. -/
def sortByTime (l : List (Nat × Nat)) : List (Nat × Nat) :=
  l.foldr insertByTime []

/-- Removal of an id from the map and from every index, as done per evicted
entry in `prune_addresses`. -/
def AddressMan.removeEverywhere (am : AddressMan) (id : Nat) : AddressMan :=
  { am with
    addresses := am.addresses.filter (fun p => p.1 != id),
    good_addresses := am.good_addresses.filter (fun x => x != id),
    good_peers_by_service := bucketsRetainAll am.good_peers_by_service id,
    peers_by_service := bucketsRetainAll am.peers_by_service id }

/-- `AddressMan::prune_addresses`. -/
def AddressMan.prune_addresses (am : AddressMan) : AddressMan :=
  let excess := am.addresses.length - am.max_size
  if excess == 0 then am
  else
    let oldest := sortByTime (am.addresses.map (fun p => (p.1, p.2.last_connected)))
    (oldest.take excess).foldl (fun a p => a.removeEverywhere p.1) am

/-- The per-candidate body of the `push_addresses` loop. -/
def AddressMan.push_one (am : AddressMan) (address : LocalAddress) : AddressMan :=
  let id := address.id
  if !(hasFlag address.services SF_WITNESS) || !(hasFlag address.services SF_NETWORK_LIMITED) then
    am
  else if (match address.address with
      | .ipv4 o0 o1 o2 o3 => !(is_routable_ipv4 o0 o1 o2 o3)
      | .ipv6 b => !(is_routable_ipv6 b)
      | _ => false) then am
  else if !(am.is_net_reachable address) then am
  else if !address.is_routable then am
  else if am.addresses.any (fun p => p.2.address == address.address) then am
  else if (lookupA am.addresses id).isSome then am
  else
    let am1 := { am with addresses := am.addresses ++ [(id, address)] }
    let am2 :=
      if is_good_peer address then
        { am1 with good_addresses := am1.good_addresses ++ [id] }
      else am1
    let am3 := am2.push_if_has_service address SF_UTREEXO
    let am4 := am3.push_if_has_service address SF_NONE
    am4.push_if_has_service address SF_COMPACT_FILTERS

/-- `AddressMan::push_addresses`: the candidate loop followed by
`prune_addresses`. -/
def AddressMan.push_addresses (am : AddressMan) (addrs : List LocalAddress) : AddressMan :=
  (addrs.foldl AddressMan.push_one am).prune_addresses

/-- `AddressMan::update_set_state`.  `now` is the Unix time stamped on
`last_connected` when the new state is `Connected`. -/
def AddressMan.update_set_state (am : AddressMan) (idx : Nat) (state : AddressState)
    (now : Nat) : AddressMan :=
  let am1 :=
    match state with
    | .banned _ =>
      { am with good_addresses := am.good_addresses.filter (fun x => x != idx) }
    | .tried _ =>
      let amA :=
        if am.good_addresses.contains idx then am
        else { am with good_addresses := am.good_addresses ++ [idx] }
      match lookupA amA.addresses idx with
      | some address =>
        let amB := amA.push_if_has_service address SF_UTREEXO
        let amC := amB.push_if_has_service address SF_UTREEXO_FILTER
        let amD := amC.push_if_has_service address SF_NONE
        amD.push_if_has_service address SF_COMPACT_FILTERS
      | none => amA
    | .neverTried =>
      { am with good_addresses := am.good_addresses.filter (fun x => x != idx) }
    | .connected =>
      let amA := { am with
        addresses := modifyA am.addresses idx (fun a => { a with last_connected := now }) }
      if amA.good_addresses.contains idx then amA
      else { amA with good_addresses := amA.good_addresses ++ [idx] }
    | .failed _ =>
      { am with
        good_addresses := am.good_addresses.filter (fun x => x != idx),
        good_peers_by_service := bucketsRetainAll am.good_peers_by_service idx }
  { am1 with addresses := modifyA am1.addresses idx (fun a => { a with state := state }) }

/-- `AddressMan::add_peer_to_service`. -/
def AddressMan.add_peer_to_service (am : AddressMan) (idx service : Nat) : AddressMan :=
  match lookupA am.peers_by_service service with
  | some peers =>
    if peers.contains idx then am
    else { am with peers_by_service := modifyA am.peers_by_service service (fun l => l ++ [idx]) }
  | none => { am with peers_by_service := am.peers_by_service ++ [(service, [idx])] }

/-- `AddressMan::remove_peer_from_service`. -/
def AddressMan.remove_peer_from_service (am : AddressMan) (idx service : Nat) : AddressMan :=
  { am with peers_by_service :=
      modifyA am.peers_by_service service (fun l => l.filter (fun x => x != idx)) }

/-- `AddressMan::update_peer_for_service`. -/
def AddressMan.update_peer_for_service (am : AddressMan) (id service : Nat) : AddressMan :=
  match lookupA am.addresses id with
  | none => am
  | some peer =>
    if hasFlag peer.services service then am.add_peer_to_service id service
    else am.remove_peer_from_service id service

/-- `AddressMan::update_peer_services_buckets`. -/
def AddressMan.update_peer_services_buckets (am : AddressMan) (idx : Nat) : AddressMan :=
  (am.update_peer_for_service idx SF_UTREEXO).update_peer_for_service idx SF_COMPACT_FILTERS

/-- `AddressMan::update_set_service_flag`. -/
def AddressMan.update_set_service_flag (am : AddressMan) (idx flags : Nat) : AddressMan :=
  if !(hasFlag flags SF_NETWORK) || !(hasFlag flags SF_WITNESS) then
    { am with
      addresses := am.addresses.filter (fun p => p.1 != idx),
      peers_by_service := bucketsRetainAll am.peers_by_service idx,
      good_addresses := am.good_addresses.filter (fun x => x != idx),
      good_peers_by_service := bucketsRetainAll am.good_peers_by_service idx }
  else
    let am1 := { am with
      addresses := modifyA am.addresses idx (fun a => { a with services := flags }) }
    am1.update_peer_services_buckets idx

/-- `AddressMan::rearrange_buckets` at Unix time `now`: applies the per-state
demotion rule to every stored address. -/
def AddressMan.rearrange_buckets (am : AddressMan) (now : Nat) : AddressMan :=
  { am with addresses :=
      am.addresses.map (fun p => (p.1, { p.2 with state := rearrangeState now p.2.state })) }

/-- Pops the next value from a stream of random draws. -/
def nextRand : List Nat → Nat × List Nat
  | [] => (0, [])
  | r :: rs => (r, rs)

/-- `AddressMan::get_address_by_service`, with the random index draw `r`. -/
def AddressMan.get_address_by_service (am : AddressMan) (service r : Nat) :
    Option (Nat × LocalAddress) :=
  match lookupA am.good_peers_by_service service with
  | none => none
  | some peers =>
    if peers.isEmpty then none
    else
      match peers.get? (r % peers.length) with
      | none => none
      | some pid =>
        match lookupA am.addresses pid with
        | none => none
        | some a => some (pid, a)

/-- The filter closure of `try_with_service`: an expired `Failed` passes,
then `Tried` and `NeverTried` pass; everything else (including ids missing
from the map) is dropped. -/
def try_with_service_keep (am : AddressMan) (now x : Nat) : Bool :=
  match lookupA am.addresses x with
  | some address =>
    match address.state with
    | .failed w => if w + RETRY_TIME < now then true else false
    | .tried _ => true
    | .neverTried => true
    | _ => false
  | none => false

/-- `AddressMan::try_with_service`. -/
def AddressMan.try_with_service (am : AddressMan) (service now r : Nat) :
    Option (Nat × LocalAddress) :=
  match lookupA am.peers_by_service service with
  | none => none
  | some peers =>
    let filtered := peers.filter (fun x => try_with_service_keep am now x)
    if filtered.isEmpty then none
    else
      match filtered.get? (r % filtered.length) with
      | none => none
      | some pid =>
        match lookupA am.addresses pid with
        | none => none
        | some a => some (pid, a)

/-- `AddressMan::get_random_address`, with random draws `r1` (inside
`try_with_service`) and `r2` (fallback key pick). -/
def AddressMan.get_random_address (am : AddressMan) (service now r1 r2 : Nat) :
    Option (Nat × LocalAddress) :=
  if am.addresses.isEmpty then none
  else
    match am.try_with_service service now r1 with
    | some a => some a
    | none =>
      match (am.addresses.map (fun p => p.1)).get? (r2 % am.addresses.length) with
      | none => none
      | some k =>
        match lookupA am.addresses k with
        | none => none
        | some a => some (k, a)

/-- The `for _ in 0..10` retry loop of `get_address_to_connect`.  A `Banned`
or `Failed` pick that has not yet expired purges the id from the
required-service good list and from `good_addresses`, then retries. -/
def gatc_loop (service now : Nat) : Nat → List Nat → AddressMan →
    Option (Nat × LocalAddress) × AddressMan
  | 0, _, am => (none, am)
  | fuel + 1, rands, am =>
    let r1 := (nextRand rands).1
    let rands1 := (nextRand rands).2
    let r2 := (nextRand rands1).1
    let rands2 := (nextRand rands1).2
    let r3 := (nextRand rands2).1
    let rands3 := (nextRand rands2).2
    match (am.get_address_by_service service r1).orElse
        (fun _ => am.get_random_address service now r2 r3) with
    | none => (none, am)
    | some (id, peer) =>
      match peer.state with
      | .neverTried => (some (id, peer), am)
      | .tried _ => (some (id, peer), am)
      | .connected => gatc_loop service now fuel rands3 am
      | .banned w =>
        if w + RETRY_TIME < now then (some (id, peer), am)
        else
          gatc_loop service now fuel rands3
            { am with
              good_peers_by_service :=
                modifyA am.good_peers_by_service service (fun l => l.filter (fun x => x != id)),
              good_addresses := am.good_addresses.filter (fun x => x != id) }
      | .failed w =>
        if w + RETRY_TIME < now then (some (id, peer), am)
        else
          gatc_loop service now fuel rands3
            { am with
              good_peers_by_service :=
                modifyA am.good_peers_by_service service (fun l => l.filter (fun x => x != id)),
              good_addresses := am.good_addresses.filter (fun x => x != id) }

/-- `AddressMan::get_address_to_connect`. -/
def AddressMan.get_address_to_connect (am : AddressMan) (required_service : Nat)
    (feeler : Bool) (now : Nat) (rands : List Nat) :
    Option (Nat × LocalAddress) × AddressMan :=
  if am.addresses.isEmpty then (none, am)
  else if feeler then
    match (am.addresses.map (fun p => p.1)).get? ((nextRand rands).1 % am.addresses.length) with
    | none => (none, am)
    | some peer =>
      match lookupA am.addresses peer with
      | none => (none, am)
      | some address =>
        match address.state with
        | .banned _ => (none, am)
        | .connected => (none, am)
        | _ => (some (peer, address), am)
  else
    gatc_loop required_service now 10 rands am

/-- The states of an `AddressMan` reachable from a fresh instance by any
sequence of its public operations, with current time and random draws as
universally quantified inputs. -/
inductive Reachable : AddressMan → Prop where
  | init (max_size : Option Nat) (reachable : List ReachableNetworks) :
      Reachable (AddressMan.new max_size reachable)
  | push_addresses (am : AddressMan) (addrs : List LocalAddress) :
      Reachable am → Reachable (am.push_addresses addrs)
  | update_set_state (am : AddressMan) (idx : Nat) (state : AddressState) (now : Nat) :
      Reachable am → Reachable (am.update_set_state idx state now)
  | update_set_service_flag (am : AddressMan) (idx flags : Nat) :
      Reachable am → Reachable (am.update_set_service_flag idx flags)
  | rearrange_buckets (am : AddressMan) (now : Nat) :
      Reachable am → Reachable (am.rearrange_buckets now)
  | get_address_to_connect (am : AddressMan) (service : Nat) (feeler : Bool)
      (now : Nat) (rands : List Nat) :
      Reachable am → Reachable (am.get_address_to_connect service feeler now rands).2
  | prune_addresses (am : AddressMan) :
      Reachable am → Reachable am.prune_addresses

/-! ## Spec-side routability predicates (for C6) -/

/-- The claim's enumeration of non-routable IPv4 ranges: 0/8, loopback,
broadcast, RFC 1918 private, 198.18/15, link-local 169.254/16, CGNAT
100.64/10, RFC 5737 documentation. -/
def spec_nonroutable_ipv4 (o0 o1 o2 o3 : Nat) : Bool :=
  (o0 == 0) ||
  (o0 == 127) ||
  (o0 == 255 && o1 == 255 && o2 == 255 && o3 == 255) ||
  (o0 == 10) || (o0 == 172 && decide (16 ≤ o1) && decide (o1 ≤ 31)) ||
    (o0 == 192 && o1 == 168) ||
  (o0 == 198 && (o1 == 18 || o1 == 19)) ||
  (o0 == 169 && o1 == 254) ||
  (o0 == 100 && (decide (64 ≤ o1) && decide (o1 ≤ 127))) ||
  (o0 == 192 && o1 == 0 && o2 == 2) || (o0 == 198 && o1 == 51 && o2 == 100) ||
  (o0 == 203 && o1 == 0 && o2 == 113)

/-- The claim's IPv6 rejection ranges shared by the original and the amended
reading: unspecified, loopback, unique-local fc00::/7, ORCHID 2001:10::/28
and ORCHIDv2 2001:20::/28. -/
def spec_nonroutable_ipv6_core (b : List Nat) : Bool :=
  ipv6_is_unspecified b || ipv6_is_loopback b ||
  (oct b 0 == 0xFC || oct b 0 == 0xFD) ||
  (oct b 0 == 0x20 && oct b 1 == 0x01 && oct b 2 == 0x00 &&
    (decide (16 ≤ oct b 3) && decide (oct b 3 ≤ 31))) ||
  (oct b 0 == 0x20 && oct b 1 == 0x01 && oct b 2 == 0x00 &&
    (decide (32 ≤ oct b 3) && decide (oct b 3 ≤ 47)))

/-- Link-local `fe80::/64` — the range named by the claim as written. -/
def spec_linklocal_64 (b : List Nat) : Bool :=
  oct b 0 == 0xFE && oct b 1 == 0x80 &&
    (oct b 2 == 0 && oct b 3 == 0 && oct b 4 == 0 && oct b 5 == 0 &&
      oct b 6 == 0 && oct b 7 == 0)

/-- Link-local `fe80::/10` — the range the code actually rejects. -/
def spec_linklocal_10 (b : List Nat) : Bool :=
  oct b 0 == 0xFE && (decide (0x80 ≤ oct b 1) && decide (oct b 1 ≤ 0xBF))

/-- The claim's routability predicate exactly as stated (C6), with
link-local read as `fe80::/64`. -/
def spec_routable_original : AddrV2 → Bool
  | .ipv4 o0 o1 o2 o3 => !(spec_nonroutable_ipv4 o0 o1 o2 o3)
  | .ipv6 b => !(spec_nonroutable_ipv6_core b || spec_linklocal_64 b)
  | .cjdns b => oct b 0 == 0xFC
  | _ => true

/-- The amended routability predicate: identical to the claim except that
the IPv6 link-local rejection range is `fe80::/10`. -/
def spec_routable_amended : AddrV2 → Bool
  | .ipv4 o0 o1 o2 o3 => !(spec_nonroutable_ipv4 o0 o1 o2 o3)
  | .ipv6 b => !(spec_nonroutable_ipv6_core b || spec_linklocal_10 b)
  | .cjdns b => oct b 0 == 0xFC
  | _ => true

/-- Well-formed addresses: every octet is a byte and 16-byte families have
sixteen octets. -/
def WFAddr : AddrV2 → Prop
  | .ipv4 o0 o1 o2 o3 => o0 < 256 ∧ o1 < 256 ∧ o2 < 256 ∧ o3 < 256
  | .ipv6 b => b.length = 16 ∧ ∀ x ∈ b, x < 256
  | .cjdns b => b.length = 16 ∧ ∀ x ∈ b, x < 256
  | _ => True

/-! ### Concrete states and auxiliary predicates used by the claims -/

/-- The height-0 filter header of the one-record store used to exhibit the
`u32` offset wrap-around. -/
def c10header : FilterHeader := List.replicate 32 7

/-- A well-formed store holding exactly one 40-byte descriptor. -/
def c10store : FlatFilterStore := ⟨c10header ++ toLe 8 0, 40⟩

/-- Every stored address in the map is routable. -/
def RoutableMap (am : AddressMan) : Prop :=
  ∀ p ∈ am.addresses, p.2.is_routable = true

/-- `state ∈ {Tried, Connected}` as a Boolean predicate. -/
def state_is_tried_or_connected : AddressState → Bool
  | .tried _ => true
  | .connected => true
  | _ => false

/-- A routable candidate with the minimum services, in state `Tried(0)`. -/
def c3addr : LocalAddress :=
  ⟨.ipv4 1 2 3 4, 0, .tried 0, SF_WITNESS + SF_NETWORK_LIMITED, 8333, 1⟩

/-- A concrete reachable state: `update_set_state(0, Connected)` on a fresh
manager (adds the absent id 0 to `good_addresses`), one pushed `Tried`
address, then `rearrange_buckets` after `ASSUME_STALE` has passed (demotes
the stored address to `NeverTried` without pruning `good_addresses`). -/
def c3state : AddressMan :=
  (((AddressMan.new none [.ipv4]).update_set_state 0 .connected 0).push_addresses
    [c3addr]).rearrange_buckets 86401

/-- A routable, reachable candidate advertising `WITNESS` (but not
`NETWORK_LIMITED`), used to refute C4 as stated. -/
def c4addr : LocalAddress := ⟨.ipv4 8 8 8 8, 0, .tried 0, SF_NETWORK + SF_WITNESS, 8333, 1⟩

/-- A candidate advertising both required flags. -/
def c4both : LocalAddress :=
  ⟨.ipv4 8 8 4 4, 0, .tried 0, SF_WITNESS + SF_NETWORK_LIMITED, 8333, 2⟩

/-- The contents of a service bucket (empty when the service key is absent). -/
def bucketGet (m : List (Nat × List Nat)) (s : Nat) : List Nat :=
  (lookupA m s).getD []

/-- A good Utreexo-advertising address used in the C5 counterexample and
witness. -/
def c5good : LocalAddress :=
  ⟨.ipv4 9 9 9 9, 0, .tried 0, SF_WITNESS + SF_NETWORK_LIMITED + SF_UTREEXO, 8333, 1⟩

/-- The same candidate in `NeverTried` state (not a good peer on insert). -/
def c5fresh : LocalAddress :=
  ⟨.ipv4 9 9 9 8, 0, .neverTried, SF_WITNESS + SF_NETWORK_LIMITED + SF_UTREEXO, 8333, 2⟩

/-- The IPv6 address `fe81::`: inside `fe80::/10` but outside `fe80::/64`. -/
def c6addr : AddrV2 := .ipv6 [0xFE, 0x81, 0, 0, 0, 0, 0, 0, 0, 0, 0, 0, 0, 0, 0, 0]

/-! ### Bit-level lemmas for `HeaderOffset` -/

theorem testBit_lor_two_pow_self (x : Nat) : ((2 ^ 63 : Nat) ||| x).testBit 63 = true := by
  simp only [Nat.testBit_lor, Nat.testBit_two_pow_self, Bool.true_or]

theorem land_lor_two_pow_ne_zero (x : Nat) :
    ((2 ^ 63 : Nat) ||| x) &&& 2 ^ 63 ≠ 0 := by
  intro h
  have hb : (((2 ^ 63 : Nat) ||| x) &&& 2 ^ 63).testBit 63 = true := by
    simp only [Nat.testBit_land, testBit_lor_two_pow_self, Nat.testBit_two_pow_self, Bool.and_self]
  rw [h, Nat.zero_testBit] at hb
  exact Bool.false_ne_true hb

theorem land_lor_low_bits (x : Nat) (hx : x < 2 ^ 63) :
    ((2 ^ 63 : Nat) ||| x) &&& (2 ^ 63 - 1) = x := by
  apply Nat.eq_of_testBit_eq
  intro i
  simp only [Nat.testBit_land, Nat.testBit_lor, Nat.testBit_two_pow, Nat.testBit_two_pow_sub_one]
  rcases lt_trichotomy i 63 with hi | hi | hi
  · simp [Nat.ne_of_gt hi, hi]
  · subst hi
    simp [Nat.testBit_lt_two_pow hx]
  · have hxi : x.testBit i = false :=
      Nat.testBit_lt_two_pow
        (lt_of_lt_of_le hx (Nat.pow_le_pow_right (by norm_num) (le_of_lt hi)))
    simp [hxi, Nat.ne_of_lt hi, Nat.lt_asymm hi]

/-! ### C8 -/

/-- C8 (corrected part): claim is false as stated.  For the valid `u64` offset
`2 ^ 63` (top bit set), `from_u64 (to_u64 x)` loses the top offset bit and does
not return `Some x`, even though `x.present = true`. -/
theorem c8_roundtrip_counterexample :
    (HeaderOffset.mk true (2 ^ 63)).present = true ∧
      2 ^ 63 < 2 ^ 64 ∧
      HeaderOffset.from_u64 (HeaderOffset.to_u64 ⟨true, 2 ^ 63⟩) ≠ some ⟨true, 2 ^ 63⟩ := by
  refine ⟨rfl, by norm_num, ?_⟩
  decide

/-- C8 (amended): for every `HeaderOffset` with `present = true` whose offset
fits in 63 bits, `from_u64 (to_u64 x) = some x` and the low 63 bits of
`to_u64 x` are exactly the offset; `from_u64 0 = none`; and bit 63 of
`to_u64 x` is set if and only if `x.present`. -/
theorem c8_header_offset_roundtrip (x : HeaderOffset) :
    (x.present = true → x.offset < 2 ^ 63 →
      HeaderOffset.from_u64 x.to_u64 = some x ∧
        Nat.land x.to_u64 (2 ^ 63 - 1) = x.offset) ∧
      HeaderOffset.from_u64 0 = none ∧
      x.to_u64.testBit 63 = x.present := by
  refine ⟨?_, by decide, ?_⟩
  · intro hp ho
    obtain ⟨p, o⟩ := x
    simp only at hp ho
    subst hp
    have hto : HeaderOffset.to_u64 ⟨true, o⟩ = 2 ^ 63 ||| o := by
      simp [HeaderOffset.to_u64]
    constructor
    · rw [hto, HeaderOffset.from_u64, if_neg (land_lor_two_pow_ne_zero o),
        land_lor_low_bits o ho]
    · rw [hto]
      exact land_lor_low_bits o ho
  · obtain ⟨p, o⟩ := x
    cases p
    · simp [HeaderOffset.to_u64, Nat.zero_testBit]
    · show (HeaderOffset.to_u64 ⟨true, o⟩).testBit 63 = true
      rw [show HeaderOffset.to_u64 ⟨true, o⟩ = 2 ^ 63 ||| o from rfl]
      exact testBit_lor_two_pow_self o

/-- C8 witness: the amended round-trip at the concrete offset 5. -/
theorem c8_header_offset_roundtrip_witness :
    HeaderOffset.from_u64 (HeaderOffset.to_u64 ⟨true, 5⟩) = some ⟨true, 5⟩ :=
  ((c8_header_offset_roundtrip ⟨true, 5⟩).1 rfl (by norm_num)).1

/-! ### C9 -/

/-- C9: whenever the cached file length is not a multiple of the 40-byte
record size, `get_filter_header` reports `CorruptedFile` at every height. -/
theorem c9_corrupted_file (s : FlatFilterStore) (height : Nat)
    (h : s.len % FILTER_DESCRIPTOR_SIZE ≠ 0) :
    s.get_filter_header height = .error .corruptedFile := by
  have hne : s.len ≠ 0 := by
    intro h0
    exact h (by simp [h0])
  simp [FlatFilterStore.get_filter_header, FlatFilterStore.read_descriptor_by_height, h, hne,
    Except.map]

/-- C9 witness: a store whose file length field is 39 reports `CorruptedFile`
at height 0. -/
theorem c9_corrupted_file_witness :
    FlatFilterStore.get_filter_header ⟨List.replicate 39 0, 39⟩ 0 = .error .corruptedFile :=
  c9_corrupted_file ⟨List.replicate 39 0, 39⟩ 0 (by decide)

/-! ### C10 -/

/-- C10 (code bug evaluation): with exactly one stored descriptor, querying
height `2 ^ 29` computes the wrapped `u32` offset `2 ^ 29 * 40 % 2 ^ 32 = 0`
and returns the header stored for height 0 instead of `Err(NotFound)`. -/
theorem c10_offset_wraparound_bug :
    FlatFilterStore.get_filter_header c10store (2 ^ 29) = .ok c10header ∧
      FlatFilterStore.get_filter_header c10store (2 ^ 29) ≠ .error .notFound ∧
      2 ^ 29 * FILTER_DESCRIPTOR_SIZE % 2 ^ 32 = 0 := by
  have h1 : FlatFilterStore.get_filter_header c10store (2 ^ 29) = .ok c10header := rfl
  refine ⟨h1, ?_, by decide⟩
  rw [h1]
  intro h
  exact Except.noConfusion h

/-! ### C1 -/

/-- C1: at the SwiftSync stop height, `handle_stop_height_reached` marks the
chain as assumed-valid with an empty accumulator and toggles IBD off exactly
when the final aggregator is the identity and the supply is at most
`max_supply_at_height stop_height`; otherwise it records
`abort_height = some stop_height` and performs neither chain commit. -/
theorem c1_stop_height_finalize (max_supply_at_height : Nat → Nat)
    (c : SwiftSyncCtx) (stop_height : Nat) :
    ((handle_stop_height_reached max_supply_at_height c stop_height).mark_chain_as_assumed_empty_acc = true ∧
        (handle_stop_height_reached max_supply_at_height c stop_height).toggle_ibd_off = true ↔
      c.agg = 0 ∧ c.supply ≤ max_supply_at_height stop_height) ∧
      (¬(c.agg = 0 ∧ c.supply ≤ max_supply_at_height stop_height) →
        (handle_stop_height_reached max_supply_at_height c stop_height).ctx.abort_height =
            some stop_height ∧
          (handle_stop_height_reached max_supply_at_height c stop_height).mark_chain_as_assumed_empty_acc = false ∧
          (handle_stop_height_reached max_supply_at_height c stop_height).toggle_ibd_off = false) ∧
      (c.agg = 0 ∧ c.supply ≤ max_supply_at_height stop_height →
        (handle_stop_height_reached max_supply_at_height c stop_height).ctx = c) := by
  by_cases hz : c.agg = 0
  · by_cases hs : c.supply ≤ max_supply_at_height stop_height
    · have hout : handle_stop_height_reached max_supply_at_height c stop_height = ⟨c, true, true⟩ := by
        simp [handle_stop_height_reached, SwiftSyncAgg.is_zero, hz, Nat.not_lt.mpr hs]
      rw [hout]
      exact ⟨by simp [hz, hs], by simp [hz, hs], fun _ => rfl⟩
    · have hout : handle_stop_height_reached max_supply_at_height c stop_height =
          ⟨{ c with abort_height := some stop_height }, false, false⟩ := by
        simp [handle_stop_height_reached, SwiftSyncAgg.is_zero, hz, Nat.lt_of_not_le hs]
      rw [hout]
      refine ⟨by simp [hs], fun _ => ⟨rfl, rfl, rfl⟩, fun hcontra => absurd hcontra.2 hs⟩
  · have hout : handle_stop_height_reached max_supply_at_height c stop_height =
        ⟨{ c with abort_height := some stop_height }, false, false⟩ := by
      simp [handle_stop_height_reached, SwiftSyncAgg.is_zero, hz]
    rw [hout]
    refine ⟨by simp [hz], fun _ => ⟨rfl, rfl, rfl⟩, fun hcontra => absurd hcontra.1 hz⟩

/-- C1 witness: with the identity aggregator and supply within the limit the
chain is committed, while a non-identity aggregator aborts at the stop
height. -/
theorem c1_stop_height_finalize_witness :
    (handle_stop_height_reached (fun _ => 100) ⟨0, 50, none⟩ 175).toggle_ibd_off = true ∧
      (handle_stop_height_reached (fun _ => 100) ⟨1, 50, none⟩ 175).ctx.abort_height = some 175 :=
  ⟨((c1_stop_height_finalize (fun _ => 100) ⟨0, 50, none⟩ 175).1.mpr (by decide)).2,
    ((c1_stop_height_finalize (fun _ => 100) ⟨1, 50, none⟩ 175).2.1 (by decide)).1⟩

/-! ### C2 -/

/-- C2 (code bug evaluation): for a non-`InvalidProof`, non-orphan validation
error, `handle_invalid_block` invalidates the block and shuts the peer down,
but the `update_set_state` call uses `Banned(BAN_TIME)` — the constant alone,
not `Banned(now + BAN_TIME)` — so for any positive current time the stored
state differs from the claimed one, and whenever `BAN_TIME < now` the very
next `rearrange_buckets` demotes the "ban" to `NeverTried` immediately. -/
theorem c2_ban_time_bug (ban_time now aid : Nat) (hnow : 0 < now) :
    (handle_invalid_block ban_time (some aid) (.blockValidation .badMerkleRoot)).invalidate_block_called = true ∧
      (handle_invalid_block ban_time (some aid) (.blockValidation .badMerkleRoot)).shutdown_sent = true ∧
      (handle_invalid_block ban_time (some aid) (.blockValidation .badMerkleRoot)).ban_call =
        some (aid, AddressState.banned ban_time) ∧
      AddressState.banned ban_time ≠ AddressState.banned (now + ban_time) ∧
      (ban_time < now → rearrangeState now (AddressState.banned ban_time) = .neverTried) := by
  refine ⟨rfl, rfl, rfl, ?_, ?_⟩
  · intro h
    have := AddressState.banned.inj h
    omega
  · intro h
    simp [rearrangeState, h]

/-- C2 witness: the bug evaluated at a concrete address id, ban-time constant
and current Unix time. -/
theorem c2_ban_time_bug_witness :
    (handle_invalid_block 36000 (some 7) (.blockValidation .badMerkleRoot)).ban_call =
        some (7, AddressState.banned 36000) ∧
      AddressState.banned 36000 ≠ AddressState.banned (1760227200 + 36000) ∧
      rearrangeState 1760227200 (AddressState.banned 36000) = .neverTried := by
  obtain ⟨h1, h2, h3, h4, h5⟩ := c2_ban_time_bug 36000 1760227200 7 (by decide)
  exact ⟨h3, h4, h5 (by decide)⟩

/-! ### Lemmas about the hints file -/

theorem toLe_length (n v : Nat) : (toLe n v).length = n := by
  induction n generalizing v with
  | zero => rfl
  | succ k ih => simp [toLe, ih]

theorem fromLe_toLe (n v : Nat) (h : v < 256 ^ n) : fromLe (toLe n v) = v := by
  induction n generalizing v with
  | zero =>
    simp [Nat.pow_zero, Nat.lt_one_iff] at h
    simp [toLe, fromLe, h]
  | succ k ih =>
    have hdiv : v / 256 < 256 ^ k := by
      rw [Nat.div_lt_iff_lt_mul (by norm_num)]
      calc v < 256 ^ (k + 1) := h
        _ = 256 ^ k * 256 := by ring
    have hrec := ih (v / 256) hdiv
    show fromLe ((v % 256) :: toLe k (v / 256)) = v
    simp only [fromLe, List.foldr_cons]
    rw [show List.foldr (fun b acc => b + 256 * acc) 0 (toLe k (v / 256)) =
      fromLe (toLe k (v / 256)) from rfl, hrec]
    omega

theorem tableMap_length (off : Nat → Nat) (n : Nat) :
    ∀ start, (tableMap off start n).length = n := by
  induction n with
  | zero => intro start; rfl
  | succ k ih => intro start; simp [tableMap, ih]

theorem lookupA_tableMap (off : Nat → Nat) (n : Nat) :
    ∀ start k, lookupA (tableMap off start n) k =
      if start ≤ k ∧ k < start + n then some (off k) else none := by
  induction n with
  | zero =>
    intro start k
    rw [if_neg (by omega)]
    rfl
  | succ m ih =>
    intro start k
    by_cases hk : start = k
    · subst hk
      rw [if_pos (by omega)]
      simp [tableMap, lookupA, List.find?]
    · have hne : (start == k) = false := by simp [hk]
      calc lookupA (tableMap off start (m + 1)) k
          = lookupA (tableMap off (start + 1) m) k := by
            simp [tableMap, lookupA, List.find?, hne]
        _ = if start + 1 ≤ k ∧ k < start + 1 + m then some (off k) else none := ih (start + 1) k
        _ = if start ≤ k ∧ k < start + (m + 1) then some (off k) else none := by
            rcases Nat.lt_or_ge k (start + 1) with hlt | hge
            · rw [if_neg (by omega), if_neg (by omega)]
            · by_cases hin : k < start + 1 + m
              · rw [if_pos (by omega), if_pos (by omega)]
              · rw [if_neg (by omega), if_neg (by omega)]

theorem insertA_fresh {α : Type} (l : List (Nat × α)) (k : Nat) (v : α)
    (h : ∀ p ∈ l, p.1 ≠ k) : insertA l k v = l ++ [(k, v)] := by
  unfold insertA
  rw [if_neg]
  rw [List.find?_eq_none.mpr]
  · simp
  · intro p hp
    simp [h p hp]

theorem readExact_of_drop (file mid rest : List Nat) (pos n : Nat)
    (hdrop : file.drop pos = mid ++ rest) (hn : mid.length = n) :
    readExact file pos n = some (mid, pos + n) := by
  unfold readExact
  rw [hdrop, List.take_left' hn, if_pos hn]

theorem readRecords_table (off : Nat → Nat) (rest : List Nat) (n : Nat)
    (hoff : ∀ h, off h < 2 ^ 64) :
    ∀ (start pos : Nat) (file : List Nat) (acc : List (Nat × Nat)),
      start + n ≤ 2 ^ 32 →
      file.drop pos = hintsTable off start n ++ rest →
      (∀ p ∈ acc, p.1 < start) →
      readRecords file n pos acc = some (acc ++ tableMap off start n, pos + 12 * n) := by
  induction n with
  | zero =>
    intro start pos file acc hb hdrop hacc
    simp [readRecords, tableMap]
  | succ m ih =>
    intro start pos file acc hb hdrop hacc
    rw [hintsTable] at hdrop
    simp only [List.append_assoc] at hdrop
    have h4 : readExact file pos 4 = some (toLe 4 start, pos + 4) :=
      readExact_of_drop file (toLe 4 start) _ pos 4 hdrop (toLe_length 4 start)
    have hdrop4 : file.drop (pos + 4) =
        toLe 8 (off start) ++ (hintsTable off (start + 1) m ++ rest) := by
      rw [← List.drop_drop, hdrop, List.drop_left' (toLe_length 4 start)]
    have h8 : readExact file (pos + 4) 8 = some (toLe 8 (off start), pos + 4 + 8) :=
      readExact_of_drop file (toLe 8 (off start)) _ (pos + 4) 8 hdrop4 (toLe_length 8 (off start))
    have hdrop12 : file.drop (pos + 4 + 8) = hintsTable off (start + 1) m ++ rest := by
      rw [← List.drop_drop, hdrop4, List.drop_left' (toLe_length 8 (off start))]
    have hstart : fromLe (toLe 4 start) = start :=
      fromLe_toLe 4 start (by norm_num at hb ⊢; omega)
    have hoffv : fromLe (toLe 8 (off start)) = off start :=
      fromLe_toLe 8 (off start) (by have := hoff start; norm_num at this ⊢; omega)
    have hins : insertA acc start (off start) = acc ++ [(start, off start)] :=
      insertA_fresh acc start (off start) (fun p hp => Nat.ne_of_lt (hacc p hp))
    have hstep : readRecords file (m + 1) pos acc =
        readRecords file m (pos + 4 + 8)
          (insertA acc (fromLe (toLe 4 start)) (fromLe (toLe 8 (off start)))) := by
      simp only [readRecords, h4, h8]
    rw [hstep, hstart, hoffv, hins]
    have hih := ih (start + 1) (pos + 4 + 8) file (acc ++ [(start, off start)])
      (by omega) hdrop12
      (by
        intro p hp
        rcases List.mem_append.mp hp with hp1 | hp2
        · exact Nat.lt_succ_of_lt (hacc p hp1)
        · have hp3 : p = (start, off start) := by simpa using hp2
          subst hp3
          exact Nat.lt_succ_self start)
    rw [hih]
    simp only [tableMap, Option.some.injEq, Prod.mk.injEq]
    constructor
    · simp
    · omega

theorem from_file_mkHintsFile (stop : Nat) (off : Nat → Nat) (body : List Nat)
    (hstop : stop < 2 ^ 32) (hoff : ∀ h, off h < 2 ^ 64) :
    Hints.from_file (mkHintsFile stop off body) =
      some ⟨tableMap off 1 stop, mkHintsFile stop off body, 9 + 12 * stop, stop⟩ := by
  have hdrop0 : (mkHintsFile stop off body).drop 0 =
      [0x55, 0x54, 0x58, 0x4f] ++
        ([0x00] ++ (toLe 4 stop ++ (hintsTable off 1 stop ++ body))) := by
    simp [mkHintsFile]
  have h0 : readExact (mkHintsFile stop off body) 0 4 =
      some ([0x55, 0x54, 0x58, 0x4f], 0 + 4) :=
    readExact_of_drop _ _ _ 0 4 hdrop0 rfl
  have hdrop4 : (mkHintsFile stop off body).drop (0 + 4) =
      [0x00] ++ (toLe 4 stop ++ (hintsTable off 1 stop ++ body)) := by
    rw [← List.drop_drop, hdrop0]
    exact List.drop_left' rfl
  have h1 : readExact (mkHintsFile stop off body) (0 + 4) 1 = some ([0x00], 0 + 4 + 1) :=
    readExact_of_drop _ _ _ (0 + 4) 1 hdrop4 rfl
  have hdrop5 : (mkHintsFile stop off body).drop (0 + 4 + 1) =
      toLe 4 stop ++ (hintsTable off 1 stop ++ body) := by
    rw [← List.drop_drop, hdrop4]
    exact List.drop_left' rfl
  have h2 : readExact (mkHintsFile stop off body) (0 + 4 + 1) 4 =
      some (toLe 4 stop, 0 + 4 + 1 + 4) :=
    readExact_of_drop _ _ _ (0 + 4 + 1) 4 hdrop5 (toLe_length 4 stop)
  have hdrop9 : (mkHintsFile stop off body).drop (0 + 4 + 1 + 4) =
      hintsTable off 1 stop ++ body := by
    rw [← List.drop_drop, hdrop5]
    exact List.drop_left' (toLe_length 4 stop)
  have hsv : fromLe (toLe 4 stop) = stop :=
    fromLe_toLe 4 stop (by norm_num at hstop ⊢; omega)
  have hrec := readRecords_table off body stop hoff 1 (0 + 4 + 1 + 4)
    (mkHintsFile stop off body) [] (by omega) hdrop9 (by simp)
  unfold Hints.from_file
  rw [h0]
  simp only [h1, h2, hsv, hrec]
  simp only [List.nil_append]
  norm_num

theorem get_indexes_repeat (hts : Hints) (height : Nat) (v : List Nat) (h' : Hints)
    (hcall : hts.get_indexes height = (some v, h')) :
    h'.get_indexes height = (some v, h') := by
  unfold Hints.get_indexes at hcall
  cases hm : lookupA hts.map height with
  | none =>
    simp only [hm] at hcall
    exact absurd (congrArg Prod.fst hcall) (by simp)
  | some fp =>
    simp only [hm] at hcall
    cases hb : readBitmap hts.file fp with
    | none =>
      simp only [hb] at hcall
      exact absurd (congrArg Prod.fst hcall) (by simp)
    | some pr =>
      obtain ⟨u, p2⟩ := pr
      simp only [hb, Prod.mk.injEq] at hcall
      obtain ⟨hv, hh⟩ := hcall
      have hv' : u = v := Option.some.inj hv
      subst hv'
      subst hh
      unfold Hints.get_indexes
      simp only [hm, hb]

/-! ### C7 -/

/-- C7: parsing any well-formed hints file with `stop_height = 175` (arbitrary
in-bounds bitmap offsets `off` and bitmap region `body`) yields a table of
exactly 175 entries; `get_indexes 0` and `get_indexes 176` fail because the
height is absent from the table; and for every height `1 ≤ h ≤ 175`,
`get_indexes h` succeeds and returns the same vector on a repeated call. -/
theorem c7_hints_parse_roundtrip (off : Nat → Nat) (body : List Nat)
    (hoff : ∀ h, off h < 2 ^ 64)
    (hbit : ∀ h, 1 ≤ h → h ≤ 175 → (readBitmap (mkHintsFile 175 off body) (off h)).isSome) :
    ∃ hints : Hints,
      Hints.from_file (mkHintsFile 175 off body) = some hints ∧
        hints.map.length = 175 ∧
        (hints.get_indexes 0).1 = none ∧
        (hints.get_indexes 176).1 = none ∧
        (∀ h, 1 ≤ h → h ≤ 175 →
          ∃ v h', hints.get_indexes h = (some v, h') ∧ h'.get_indexes h = (some v, h')) := by
  refine ⟨⟨tableMap off 1 175, mkHintsFile 175 off body, 9 + 12 * 175, 175⟩,
    from_file_mkHintsFile 175 off body (by norm_num) hoff, tableMap_length off 175 1, ?_, ?_, ?_⟩
  · unfold Hints.get_indexes
    rw [show lookupA (tableMap off 1 175) 0 = none by
      rw [lookupA_tableMap off 175 1 0, if_neg (by omega)]]
  · unfold Hints.get_indexes
    rw [show lookupA (tableMap off 1 175) 176 = none by
      rw [lookupA_tableMap off 175 1 176, if_neg (by omega)]]
  · intro h h1 h175
    have hlk : lookupA (tableMap off 1 175) h = some (off h) := by
      rw [lookupA_tableMap off 175 1 h, if_pos (by omega)]
    obtain ⟨pr, hpr⟩ := Option.isSome_iff_exists.mp (hbit h h1 h175)
    obtain ⟨v, p2⟩ := pr
    have hcall : Hints.get_indexes
        ⟨tableMap off 1 175, mkHintsFile 175 off body, 9 + 12 * 175, 175⟩ h =
        (some v, ⟨tableMap off 1 175, mkHintsFile 175 off body, p2, 175⟩) := by
      unfold Hints.get_indexes
      simp only [hlk, hpr]
    exact ⟨v, _, hcall, get_indexes_repeat _ h v _ hcall⟩

set_option maxRecDepth 4000 in
/-- C7 witness: the concrete well-formed file with `stop_height = 175` whose
every record points at byte offset 5 (where a valid 175-bit bitmap happens to
be readable). -/
theorem c7_hints_parse_roundtrip_witness :
    ∃ hints : Hints,
      Hints.from_file (mkHintsFile 175 (fun _ => 5) []) = some hints ∧
        hints.map.length = 175 ∧
        (hints.get_indexes 0).1 = none ∧
        (hints.get_indexes 176).1 = none ∧
        (∀ h, 1 ≤ h → h ≤ 175 →
          ∃ v h', hints.get_indexes h = (some v, h') ∧ h'.get_indexes h = (some v, h')) :=
  c7_hints_parse_roundtrip (fun _ => 5) [] (fun _ => by norm_num)
    (fun h h1 h175 => by
      show (readBitmap (mkHintsFile 175 (fun _ => 5) []) 5).isSome = true
      decide)

/-! ### Address-map preservation lemmas -/

/-- `push_if_has_service` touches only the service buckets. -/
theorem push_if_has_service_addresses (am : AddressMan) (a : LocalAddress) (s : Nat) :
    (am.push_if_has_service a s).addresses = am.addresses := by
  simp only [AddressMan.push_if_has_service]
  split
  · split <;> rfl
  · rfl

/-- `push_if_has_service` does not touch `good_addresses` either. -/
theorem push_if_has_service_good_addresses (am : AddressMan) (a : LocalAddress) (s : Nat) :
    (am.push_if_has_service a s).good_addresses = am.good_addresses := by
  simp only [AddressMan.push_if_has_service]
  split
  · split <;> rfl
  · rfl

/-- The `get_address_to_connect` retry loop never modifies the address map. -/
theorem gatc_loop_addresses (service now : Nat) :
    ∀ (fuel : Nat) (rands : List Nat) (am : AddressMan),
      (gatc_loop service now fuel rands am).2.addresses = am.addresses := by
  intro fuel
  induction fuel with
  | zero => intro rands am; rfl
  | succ k ih =>
    intro rands am
    simp only [gatc_loop]
    split
    · rfl
    · split
      · rfl
      · rfl
      · exact ih _ _
      · split
        · rfl
        · rw [ih]
      · split
        · rfl
        · rw [ih]

/-- `get_address_to_connect` never modifies the address map. -/
theorem gatc_addresses (am : AddressMan) (service : Nat) (feeler : Bool) (now : Nat)
    (rands : List Nat) :
    (am.get_address_to_connect service feeler now rands).2.addresses = am.addresses := by
  simp only [AddressMan.get_address_to_connect]
  split
  · rfl
  · split
    · split
      · rfl
      · split
        · rfl
        · split <;> rfl
    · exact gatc_loop_addresses service now 10 rands am

/-! ### The routability invariant (C3) -/

theorem routable_list_modifyA (l : List (Nat × LocalAddress)) (k : Nat)
    (f : LocalAddress → LocalAddress) (hf : ∀ a, (f a).address = a.address)
    (h : ∀ p ∈ l, p.2.is_routable = true) :
    ∀ p ∈ modifyA l k f, p.2.is_routable = true := by
  intro p hp
  obtain ⟨q, hq, hpq⟩ := List.mem_map.mp hp
  subst hpq
  by_cases hk : (q.1 == k) = true
  · rw [if_pos hk]
    show is_routable_addr (f q.2).address = true
    rw [hf q.2]
    exact h q hq
  · rw [if_neg hk]
    exact h q hq

theorem routable_list_filter (l : List (Nat × LocalAddress)) (pred : Nat × LocalAddress → Bool)
    (h : ∀ p ∈ l, p.2.is_routable = true) :
    ∀ p ∈ l.filter pred, p.2.is_routable = true :=
  fun p hp => h p (List.mem_filter.mp hp).1

theorem routable_removeEverywhere (am : AddressMan) (id : Nat) (h : RoutableMap am) :
    RoutableMap (am.removeEverywhere id) :=
  routable_list_filter am.addresses _ h

theorem routable_prune_fold (l : List (Nat × Nat)) :
    ∀ am : AddressMan, RoutableMap am →
      RoutableMap (l.foldl (fun a p => a.removeEverywhere p.1) am) := by
  induction l with
  | nil => intro am h; exact h
  | cons x xs ih =>
    intro am h
    exact ih _ (routable_removeEverywhere am x.1 h)

theorem routable_prune (am : AddressMan) (h : RoutableMap am) :
    RoutableMap am.prune_addresses := by
  simp only [AddressMan.prune_addresses]
  split
  · exact h
  · exact routable_prune_fold _ am h

theorem routable_push_one (am : AddressMan) (a : LocalAddress) (h : RoutableMap am) :
    RoutableMap (am.push_one a) := by
  simp only [AddressMan.push_one]
  split
  · exact h
  · split
    · exact h
    · split
      · exact h
      · split
        · exact h
        · split
          · exact h
          · split
            · exact h
            · rename_i h1 h2 h3 h4 h5 h6
              intro p hp
              rw [push_if_has_service_addresses, push_if_has_service_addresses,
                push_if_has_service_addresses] at hp
              have hroute : a.is_routable = true := by
                revert h4
                cases hr : a.is_routable <;> simp
              have hmem : p ∈ am.addresses ++ [(a.id, a)] := by
                revert hp
                split <;> exact fun hp => hp
              rcases List.mem_append.mp hmem with hold | hnew
              · exact h p hold
              · have : p = (a.id, a) := by simpa using hnew
                rw [this]
                exact hroute

theorem routable_push_fold (addrs : List LocalAddress) :
    ∀ am : AddressMan, RoutableMap am →
      RoutableMap (addrs.foldl AddressMan.push_one am) := by
  induction addrs with
  | nil => intro am h; exact h
  | cons x xs ih =>
    intro am h
    exact ih _ (routable_push_one am x h)

theorem routable_push_addresses (am : AddressMan) (addrs : List LocalAddress)
    (h : RoutableMap am) : RoutableMap (am.push_addresses addrs) :=
  routable_prune _ (routable_push_fold addrs am h)

theorem routable_update_set_state (am : AddressMan) (idx : Nat) (st : AddressState)
    (now : Nat) (h : RoutableMap am) : RoutableMap (am.update_set_state idx st now) := by
  cases st with
  | banned t =>
    intro p hp
    simp only [AddressMan.update_set_state] at hp
    exact routable_list_modifyA am.addresses idx
      (fun a => { a with state := AddressState.banned t }) (fun a => rfl) h p hp
  | neverTried =>
    intro p hp
    simp only [AddressMan.update_set_state] at hp
    exact routable_list_modifyA am.addresses idx
      (fun a => { a with state := AddressState.neverTried }) (fun a => rfl) h p hp
  | failed t =>
    intro p hp
    simp only [AddressMan.update_set_state] at hp
    exact routable_list_modifyA am.addresses idx
      (fun a => { a with state := AddressState.failed t }) (fun a => rfl) h p hp
  | connected =>
    intro p hp
    simp only [AddressMan.update_set_state] at hp
    split at hp
    · exact routable_list_modifyA
        (modifyA am.addresses idx (fun a => { a with last_connected := now })) idx
        (fun a => { a with state := AddressState.connected }) (fun a => rfl)
        (routable_list_modifyA am.addresses idx
          (fun a => { a with last_connected := now }) (fun a => rfl) h) p hp
    · exact routable_list_modifyA
        (modifyA am.addresses idx (fun a => { a with last_connected := now })) idx
        (fun a => { a with state := AddressState.connected }) (fun a => rfl)
        (routable_list_modifyA am.addresses idx
          (fun a => { a with last_connected := now }) (fun a => rfl) h) p hp
  | tried t =>
    intro p hp
    simp only [AddressMan.update_set_state] at hp
    have hbase : ∀ q ∈ (if am.good_addresses.contains idx then am
        else { am with good_addresses := am.good_addresses ++ [idx] }).addresses,
        q.2.is_routable = true := by
      split
      · exact h
      · exact h
    split at hp
    · rename_i address heq
      rw [push_if_has_service_addresses, push_if_has_service_addresses,
        push_if_has_service_addresses, push_if_has_service_addresses] at hp
      exact routable_list_modifyA _ idx
        (fun a => { a with state := AddressState.tried t }) (fun a => rfl) hbase p hp
    · exact routable_list_modifyA _ idx
        (fun a => { a with state := AddressState.tried t }) (fun a => rfl) hbase p hp

theorem update_buckets_addresses (am : AddressMan) (idx service : Nat) :
    (am.update_peer_for_service idx service).addresses = am.addresses := by
  simp only [AddressMan.update_peer_for_service]
  split
  · rfl
  · split
    · simp only [AddressMan.add_peer_to_service]
      split
      · split <;> rfl
      · rfl
    · rfl

theorem routable_update_set_service_flag (am : AddressMan) (idx flags : Nat)
    (h : RoutableMap am) : RoutableMap (am.update_set_service_flag idx flags) := by
  intro p hp
  simp only [AddressMan.update_set_service_flag] at hp
  split at hp
  · exact routable_list_filter _ _ h p hp
  · simp only [AddressMan.update_peer_services_buckets] at hp
    rw [update_buckets_addresses, update_buckets_addresses] at hp
    exact routable_list_modifyA am.addresses idx
      (fun a => { a with services := flags }) (fun a => rfl) h p hp

theorem routable_rearrange (am : AddressMan) (now : Nat) (h : RoutableMap am) :
    RoutableMap (am.rearrange_buckets now) := by
  intro p hp
  obtain ⟨q, hq, hpq⟩ := List.mem_map.mp hp
  subst hpq
  exact h q hq

/-- Every reachable `AddressMan` stores only routable addresses. -/
theorem routable_reachable (am : AddressMan) (h : Reachable am) : RoutableMap am := by
  induction h with
  | init ms nets => intro p hp; simp [AddressMan.new] at hp
  | push_addresses am addrs hr ih => exact routable_push_addresses am addrs ih
  | update_set_state am idx st now hr ih => exact routable_update_set_state am idx st now ih
  | update_set_service_flag am idx flags hr ih =>
    exact routable_update_set_service_flag am idx flags ih
  | rearrange_buckets am now hr ih => exact routable_rearrange am now ih
  | get_address_to_connect am s f now rands hr ih =>
    intro p hp
    rw [gatc_addresses] at hp
    exact ih p hp
  | prune_addresses am hr ih => exact routable_prune am ih

/-! ### C3 -/

/-- C3 counterexample: the invariant fails in a reachable state, in both
directions the claim asserts — id 0 is in `good_addresses` but absent from
the address map, and id 1 is in `good_addresses` while its stored state is
`NeverTried`. -/
theorem c3_good_addresses_counterexample :
    Reachable c3state ∧
      (0 ∈ c3state.good_addresses ∧ lookupA c3state.addresses 0 = none) ∧
      (1 ∈ c3state.good_addresses ∧
        lookupA c3state.addresses 1 =
          some ⟨.ipv4 1 2 3 4, 0, .neverTried, SF_WITNESS + SF_NETWORK_LIMITED, 8333, 1⟩) ∧
      ¬(∀ i ∈ c3state.good_addresses, ∃ a, lookupA c3state.addresses i = some a ∧
          state_is_tried_or_connected a.state = true ∧ a.is_routable = true) := by
  refine ⟨Reachable.rearrange_buckets _ 86401 (Reachable.push_addresses _ [c3addr]
      (Reachable.update_set_state _ 0 .connected 0 (Reachable.init none [.ipv4]))),
    ⟨by decide, by decide⟩, ⟨by decide, by decide⟩, ?_⟩
  intro hclaim
  obtain ⟨a, ha, _⟩ := hclaim 0 (by decide)
  rw [show lookupA c3state.addresses 0 = none from by decide] at ha
  exact Option.noConfusion ha

/-- C3 (amended): in every state reachable from a fresh `AddressMan` by its
public operations, every id in `good_addresses` that is a key of the address
map points to a routable address.  (Membership of good ids in the map, and
the `Tried`/`Connected` state requirement, fail — see the counterexample.) -/
theorem c3_good_addresses_routable (am : AddressMan) (h : Reachable am) :
    ∀ i ∈ am.good_addresses, ∀ a, lookupA am.addresses i = some a →
      a.is_routable = true := by
  have hmap : RoutableMap am := routable_reachable am h
  intro i hi a ha
  unfold lookupA at ha
  cases hf : am.addresses.find? (fun p => p.1 == i) with
  | none => rw [hf] at ha; exact Option.noConfusion ha
  | some q =>
    rw [hf] at ha
    have hq : q ∈ am.addresses := List.mem_of_find?_eq_some hf
    have : q.2 = a := Option.some.inj ha
    rw [← this]
    exact hmap q hq

/-- C3 witness: applying the amended invariant to a concrete reachable state
containing one good, stored id. -/
theorem c3_good_addresses_routable_witness :
    LocalAddress.is_routable ⟨.ipv4 1 2 3 4, 0, .tried 0,
      SF_WITNESS + SF_NETWORK_LIMITED, 8333, 1⟩ = true :=
  c3_good_addresses_routable ((AddressMan.new none [.ipv4]).push_addresses [c3addr])
    (Reachable.push_addresses _ [c3addr] (Reachable.init none [.ipv4]))
    1 (by decide) _ (by decide)

/-! ### C4 -/

theorem lookupA_append_fresh {α : Type} (l : List (Nat × α)) (k : Nat) (v : α)
    (h : lookupA l k = none) : lookupA (l ++ [(k, v)]) k = some v := by
  induction l with
  | nil => simp [lookupA, List.find?]
  | cons x xs ih =>
    simp only [lookupA, List.cons_append, List.find?] at *
    cases hx : (x.1 == k) with
    | true =>
      rw [hx] at h
      simp at h
    | false =>
      rw [hx] at h
      simp only [] at h ⊢
      exact ih h

theorem push_if_has_service_max_size (am : AddressMan) (a : LocalAddress) (s : Nat) :
    (am.push_if_has_service a s).max_size = am.max_size := by
  simp only [AddressMan.push_if_has_service]
  split
  · split <;> rfl
  · rfl

theorem prune_addresses_eq_self (am : AddressMan) (h : am.addresses.length ≤ am.max_size) :
    am.prune_addresses = am := by
  simp only [AddressMan.prune_addresses]
  rw [if_pos]
  simp [Nat.sub_eq_zero_of_le h]

/-- C4 (amended): a candidate is rejected on service grounds when it lacks
`WITNESS` or lacks `NETWORK_LIMITED` (leaving the map unchanged), and every
candidate advertising both flags that is reachable, routable and not already
present (same address or same id) is inserted into the map. -/
theorem c4_push_service_gate (am : AddressMan) (c : LocalAddress)
    (hsize : am.addresses.length < am.max_size) :
    (hasFlag c.services SF_WITNESS = true → hasFlag c.services SF_NETWORK_LIMITED = true →
      am.is_net_reachable c = true → c.is_routable = true →
      (∀ p ∈ am.addresses, p.2.address ≠ c.address) →
      lookupA am.addresses c.id = none →
      lookupA (am.push_addresses [c]).addresses c.id = some c) ∧
    ((hasFlag c.services SF_WITNESS = false ∨ hasFlag c.services SF_NETWORK_LIMITED = false) →
      (am.push_addresses [c]).addresses = am.addresses) := by
  constructor
  · intro hW hNL hreach hroute hdup hvac
    have hgate : (!(hasFlag c.services SF_WITNESS) ||
        !(hasFlag c.services SF_NETWORK_LIMITED)) = false := by
      simp [hW, hNL]
    have hroute' : is_routable_addr c.address = true := hroute
    have hearly : (match c.address with
        | .ipv4 o0 o1 o2 o3 => !(is_routable_ipv4 o0 o1 o2 o3)
        | .ipv6 b => !(is_routable_ipv6 b)
        | _ => false) = false := by
      cases haddr : c.address with
      | ipv4 o0 o1 o2 o3 =>
        rw [haddr] at hroute'
        simp only [is_routable_addr] at hroute'
        simp [hroute']
      | ipv6 b =>
        rw [haddr] at hroute'
        simp only [is_routable_addr] at hroute'
        simp [hroute']
      | torV2 k => rfl
      | torV3 k => rfl
      | i2p k => rfl
      | cjdns b => rfl
      | unknown n payload => rfl
    have hdup' : (am.addresses.any fun p => p.2.address == c.address) = false := by
      rw [List.any_eq_false]
      intro p hp
      simp [hdup p hp]
    have hvac' : (lookupA am.addresses c.id).isSome = false := by
      simp [hvac]
    have hone : (am.push_one c).addresses = am.addresses ++ [(c.id, c)] := by
      simp only [AddressMan.push_one, hgate, hearly, hreach, hroute, hdup', hvac',
        Bool.not_true, Bool.false_eq_true, if_false, Bool.true_eq_false]
      rw [push_if_has_service_addresses, push_if_has_service_addresses,
        push_if_has_service_addresses]
      split <;> rfl
    have hmax : (am.push_one c).max_size = am.max_size := by
      simp only [AddressMan.push_one, hgate, hearly, hreach, hroute, hdup', hvac',
        Bool.not_true, Bool.false_eq_true, if_false, Bool.true_eq_false]
      rw [push_if_has_service_max_size, push_if_has_service_max_size,
        push_if_has_service_max_size]
      split <;> rfl
    show lookupA ((am.push_one c).prune_addresses).addresses c.id = some c
    rw [prune_addresses_eq_self (am.push_one c) (by rw [hone, hmax]; simp; omega)]
    rw [hone]
    exact lookupA_append_fresh am.addresses c.id c hvac
  · intro hlack
    have hgate : (!(hasFlag c.services SF_WITNESS) ||
        !(hasFlag c.services SF_NETWORK_LIMITED)) = true := by
      rcases hlack with h | h <;> simp [h]
    have hone : am.push_one c = am := by
      simp only [AddressMan.push_one, hgate, if_true]
    show ((am.push_one c).prune_addresses).addresses = am.addresses
    rw [hone, prune_addresses_eq_self am (le_of_lt hsize)]

/-- C4 counterexample: a candidate advertising one of the two flags
(`WITNESS`), reachable, routable and absent, is nevertheless rejected by
`push_addresses` — the code requires both flags. -/
theorem c4_push_service_gate_counterexample :
    hasFlag c4addr.services SF_WITNESS = true ∧
      (AddressMan.new none [.ipv4]).is_net_reachable c4addr = true ∧
      c4addr.is_routable = true ∧
      (AddressMan.new none [.ipv4]).addresses = [] ∧
      lookupA ((AddressMan.new none [.ipv4]).push_addresses [c4addr]).addresses
        c4addr.id = none := by
  decide

/-- C4 witness: the amended insertion direction at a concrete fresh manager
and candidate. -/
theorem c4_push_service_gate_witness :
    lookupA ((AddressMan.new none [.ipv4]).push_addresses [c4both]).addresses
      c4both.id = some c4both :=
  (c4_push_service_gate (AddressMan.new none [.ipv4]) c4both (by decide)).1
    (by decide) (by decide) (by decide) (by decide) (by decide) (by decide)

/-! ### C5 -/

theorem lookupA_cons {α : Type} (x : Nat × α) (xs : List (Nat × α)) (k : Nat) :
    lookupA (x :: xs) k = if x.1 == k then some x.2 else lookupA xs k := by
  simp only [lookupA, List.find?]
  cases hx : (x.1 == k) <;> simp [hx]

theorem lookupA_modifyA_self {α : Type} (m : List (Nat × α)) (k : Nat) (f : α → α) :
    lookupA (modifyA m k f) k = (lookupA m k).map f := by
  induction m with
  | nil => rfl
  | cons x xs ih =>
    show lookupA ((if x.1 == k then (x.1, f x.2) else x) :: modifyA xs k f) k = _
    rw [lookupA_cons, lookupA_cons]
    cases hx : (x.1 == k) with
    | true => simp [hx]
    | false => simp [hx, ih]

theorem lookupA_modifyA_ne {α : Type} (m : List (Nat × α)) (k k' : Nat) (f : α → α)
    (hne : k' ≠ k) : lookupA (modifyA m k' f) k = lookupA m k := by
  induction m with
  | nil => rfl
  | cons x xs ih =>
    show lookupA ((if x.1 == k' then (x.1, f x.2) else x) :: modifyA xs k' f) k = _
    rw [lookupA_cons, lookupA_cons]
    cases hx : (x.1 == k') with
    | true =>
      have : x.1 ≠ k := by
        have := eq_of_beq hx
        omega
      simp [this, ih]
    | false => simp [ih]

theorem lookupA_append_some {α : Type} (m l2 : List (Nat × α)) (k : Nat) (v : α)
    (h : lookupA m k = some v) : lookupA (m ++ l2) k = some v := by
  induction m with
  | nil => simp [lookupA, List.find?] at h
  | cons x xs ih =>
    rw [List.cons_append, lookupA_cons] at *
    by_cases hx : (x.1 == k) = true
    · rw [if_pos hx] at h ⊢
      exact h
    · rw [if_neg hx] at h ⊢
      exact ih h

theorem lookupA_map_values {α β : Type} (m : List (Nat × α)) (k : Nat) (f : α → β) :
    lookupA (m.map (fun p => (p.1, f p.2))) k = (lookupA m k).map f := by
  induction m with
  | nil => rfl
  | cons x xs ih =>
    show lookupA ((x.1, f x.2) :: xs.map (fun p => (p.1, f p.2))) k = _
    rw [lookupA_cons, lookupA_cons]
    cases hx : (x.1 == k) with
    | true => simp [hx]
    | false => simp [hx, ih]

/-- Pushing an id into a bucket puts it there. -/
theorem mem_bucketPush_self (m : List (Nat × List Nat)) (s id : Nat) :
    id ∈ bucketGet (bucketPush m s id) s := by
  simp only [bucketPush]
  split
  · rename_i hsome
    obtain ⟨l, hl⟩ := Option.isSome_iff_exists.mp hsome
    simp [bucketGet, lookupA_modifyA_self, hl]
  · rename_i hnone
    have hn : lookupA m s = none := by
      cases hv : lookupA m s
      · rfl
      · rw [hv] at hnone; simp at hnone
    simp [bucketGet, lookupA_append_fresh m s [id] hn]

/-- Pushing into any bucket preserves existing bucket membership. -/
theorem mem_bucketPush_mono (m : List (Nat × List Nat)) (s s' id x : Nat)
    (h : x ∈ bucketGet m s) : x ∈ bucketGet (bucketPush m s' id) s := by
  simp only [bucketPush]
  split
  · rename_i hsome
    by_cases hss : s' = s
    · subst hss
      obtain ⟨l, hl⟩ := Option.isSome_iff_exists.mp hsome
      rw [bucketGet, lookupA_modifyA_self, hl]
      rw [bucketGet, hl] at h
      simp at h ⊢
      exact Or.inl h
    · rw [bucketGet, lookupA_modifyA_ne m s s' _ hss]
      exact h
  · rename_i hnone
    by_cases hss : s' = s
    · subst hss
      have hn : lookupA m s' = none := by
        cases hv : lookupA m s'
        · rfl
        · rw [hv] at hnone; simp at hnone
      rw [bucketGet, hn] at h
      simp at h
    · cases hv : lookupA m s with
      | some l =>
        rw [bucketGet, lookupA_append_some m [(s', [id])] s l hv]
        rw [bucketGet, hv] at h
        exact h
      | none =>
        rw [bucketGet, hv] at h
        simp at h

/-- `push_if_has_service` adds a good advertised peer to the service's good
bucket. -/
theorem push_if_good_mem (am : AddressMan) (a : LocalAddress) (s : Nat)
    (hflag : hasFlag a.services s = true) (hgood : is_good_peer a = true) :
    a.id ∈ bucketGet (am.push_if_has_service a s).good_peers_by_service s := by
  simp only [AddressMan.push_if_has_service, hflag, hgood, if_true]
  exact mem_bucketPush_self am.good_peers_by_service s a.id

/-- `push_if_has_service` preserves good-bucket membership. -/
theorem push_if_good_mono (am : AddressMan) (a : LocalAddress) (s s' x : Nat)
    (h : x ∈ bucketGet am.good_peers_by_service s) :
    x ∈ bucketGet (am.push_if_has_service a s').good_peers_by_service s := by
  simp only [AddressMan.push_if_has_service]
  split
  · split
    · exact mem_bucketPush_mono am.good_peers_by_service s s' a.id x h
    · exact h
  · exact h

/-- No id survives `bucketsRetainAll` for itself. -/
theorem not_mem_bucketsRetainAll (m : List (Nat × List Nat)) (id s : Nat) :
    id ∉ bucketGet (bucketsRetainAll m id) s := by
  intro hmem
  rw [bucketGet, bucketsRetainAll, lookupA_map_values] at hmem
  cases hv : lookupA m s with
  | none => rw [hv] at hmem; simp at hmem
  | some l =>
    rw [hv] at hmem
    simp at hmem

theorem mem_of_contains (l : List Nat) (x : Nat) (h : l.contains x = true) : x ∈ l := by
  simpa using h

theorem not_mem_filter_ne_self (l : List Nat) (idx : Nat) :
    idx ∉ l.filter (fun x => x != idx) := by
  intro h
  have := (List.mem_filter.mp h).2
  simp at this

theorem tried_mem_good (am : AddressMan) (idx t now : Nat) :
    idx ∈ (am.update_set_state idx (.tried t) now).good_addresses := by
  simp only [AddressMan.update_set_state]
  cases hc : am.good_addresses.contains idx with
  | true =>
    simp only [hc, if_true]
    cases hlk : lookupA am.addresses idx with
    | some a =>
      simp only [hlk]
      rw [push_if_has_service_good_addresses, push_if_has_service_good_addresses,
        push_if_has_service_good_addresses, push_if_has_service_good_addresses]
      exact mem_of_contains am.good_addresses idx hc
    | none =>
      simp only [hlk]
      exact mem_of_contains am.good_addresses idx hc
  | false =>
    simp only [hc, Bool.false_eq_true, if_false]
    cases hlk : lookupA am.addresses idx with
    | some a =>
      simp only [hlk]
      rw [push_if_has_service_good_addresses, push_if_has_service_good_addresses,
        push_if_has_service_good_addresses, push_if_has_service_good_addresses]
      simp
    | none =>
      simp only [hlk]
      simp

theorem tried_mem_bucket (am : AddressMan) (idx t now S : Nat) (a : LocalAddress)
    (hS4 : S = SF_UTREEXO ∨ S = SF_UTREEXO_FILTER ∨ S = SF_NONE ∨ S = SF_COMPACT_FILTERS)
    (hlk : lookupA am.addresses idx = some a) (hgood : is_good_peer a = true)
    (hflag : hasFlag a.services S = true) :
    a.id ∈ bucketGet (am.update_set_state idx (.tried t) now).good_peers_by_service S := by
  simp only [AddressMan.update_set_state]
  cases hc : am.good_addresses.contains idx with
  | true =>
    simp only [hc, if_true, hlk]
    rcases hS4 with rfl | rfl | rfl | rfl
    · exact push_if_good_mono _ a _ _ _ (push_if_good_mono _ a _ _ _
        (push_if_good_mono _ a _ _ _ (push_if_good_mem am a SF_UTREEXO hflag hgood)))
    · exact push_if_good_mono _ a _ _ _ (push_if_good_mono _ a _ _ _
        (push_if_good_mem _ a SF_UTREEXO_FILTER hflag hgood))
    · exact push_if_good_mono _ a _ _ _ (push_if_good_mem _ a SF_NONE hflag hgood)
    · exact push_if_good_mem _ a SF_COMPACT_FILTERS hflag hgood
  | false =>
    simp only [hc, Bool.false_eq_true, if_false, hlk]
    rcases hS4 with rfl | rfl | rfl | rfl
    · exact push_if_good_mono _ a _ _ _ (push_if_good_mono _ a _ _ _
        (push_if_good_mono _ a _ _ _ (push_if_good_mem _ a SF_UTREEXO hflag hgood)))
    · exact push_if_good_mono _ a _ _ _ (push_if_good_mono _ a _ _ _
        (push_if_good_mem _ a SF_UTREEXO_FILTER hflag hgood))
    · exact push_if_good_mono _ a _ _ _ (push_if_good_mem _ a SF_NONE hflag hgood)
    · exact push_if_good_mem _ a SF_COMPACT_FILTERS hflag hgood

/-- C5 (amended): `update_set_state(i, Tried)` adds `i` to `good_addresses`,
and to the good list of each probed service (UTREEXO, UTREEXO_FILTER, NONE,
COMPACT_FILTERS) the address advertises — but only when the stored address
was already a good peer (routable and previously `Tried`/`Connected`);
`Connected` adds `i` to `good_addresses` only, leaving the per-service good
lists untouched; `Failed` removes `i` from `good_addresses` and from every
good service bucket; `Banned` and `NeverTried` remove `i` from
`good_addresses` only. -/
theorem c5_update_set_state_good_lists (am : AddressMan) (idx t now : Nat) :
    (idx ∈ (am.update_set_state idx (.tried t) now).good_addresses) ∧
    (∀ S a, (S = SF_UTREEXO ∨ S = SF_UTREEXO_FILTER ∨ S = SF_NONE ∨ S = SF_COMPACT_FILTERS) →
      lookupA am.addresses idx = some a → a.id = idx → is_good_peer a = true →
      hasFlag a.services S = true →
      idx ∈ bucketGet (am.update_set_state idx (.tried t) now).good_peers_by_service S) ∧
    (idx ∈ (am.update_set_state idx .connected now).good_addresses) ∧
    ((am.update_set_state idx .connected now).good_peers_by_service =
      am.good_peers_by_service) ∧
    (idx ∉ (am.update_set_state idx (.failed t) now).good_addresses) ∧
    (∀ S, idx ∉ bucketGet (am.update_set_state idx (.failed t) now).good_peers_by_service S) ∧
    (idx ∉ (am.update_set_state idx (.banned t) now).good_addresses) ∧
    (idx ∉ (am.update_set_state idx .neverTried now).good_addresses) := by
  refine ⟨tried_mem_good am idx t now, ?_, ?_, ?_, ?_, ?_, ?_, ?_⟩
  · intro S a hS4 hlk hid hgood hflag
    subst hid
    exact tried_mem_bucket am a.id t now S a hS4 hlk hgood hflag
  · simp only [AddressMan.update_set_state]
    cases hc : am.good_addresses.contains idx with
    | true =>
      simp only [hc, if_true]
      exact mem_of_contains am.good_addresses idx hc
    | false =>
      simp only [hc, Bool.false_eq_true, if_false]
      simp
  · simp only [AddressMan.update_set_state]
    cases hc : am.good_addresses.contains idx with
    | true => simp only [hc, if_true]
    | false => simp only [hc, Bool.false_eq_true, if_false]
  · simp only [AddressMan.update_set_state]
    exact not_mem_filter_ne_self am.good_addresses idx
  · intro S
    simp only [AddressMan.update_set_state]
    exact not_mem_bucketsRetainAll am.good_peers_by_service idx S
  · simp only [AddressMan.update_set_state]
    exact not_mem_filter_ne_self am.good_addresses idx
  · simp only [AddressMan.update_set_state]
    exact not_mem_filter_ne_self am.good_addresses idx

/-- C5 counterexample: in a concrete state, `update_set_state(1, Banned)`
leaves id 1 inside the UTREEXO good service bucket; `update_set_state(2,
Connected)` does not add the advertised id to any good service bucket; and
`update_set_state(2, Tried)` on a previously `NeverTried` peer does not add
it either — all contradicting the claim as stated. -/
theorem c5_update_set_state_counterexample :
    (1 ∈ bucketGet (((AddressMan.new none [.ipv4]).push_addresses
        [c5good]).update_set_state 1 (.banned 999) 0).good_peers_by_service SF_UTREEXO) ∧
    (hasFlag c5fresh.services SF_UTREEXO = true ∧
      2 ∉ bucketGet (((AddressMan.new none [.ipv4]).push_addresses
        [c5fresh]).update_set_state 2 .connected 50).good_peers_by_service SF_UTREEXO) ∧
    (2 ∉ bucketGet (((AddressMan.new none [.ipv4]).push_addresses
        [c5fresh]).update_set_state 2 (.tried 5) 0).good_peers_by_service SF_UTREEXO) := by
  decide

/-- C5 witness: the amended behavior applied to a concrete manager holding
one good Utreexo peer. -/
theorem c5_update_set_state_good_lists_witness :
    1 ∈ bucketGet (((AddressMan.new none [.ipv4]).push_addresses
      [c5good]).update_set_state 1 (.tried 7) 0).good_peers_by_service SF_UTREEXO :=
  (c5_update_set_state_good_lists ((AddressMan.new none [.ipv4]).push_addresses [c5good])
      1 7 0).2.1 SF_UTREEXO c5good (Or.inl rfl) (by decide) rfl (by decide) (by decide)

/-! ### C6 -/

theorem bool_eq_of_iff {a b : Bool} (h : a = true ↔ b = true) : a = b := by
  cases a <;> cases b <;> simp_all

theorem if_chain6 (c1 c2 c3 c4 c5 c6 : Bool) :
    (if c1 then false else if c2 then false else if c3 then false else if c4 then false
      else if c5 then false else if c6 then false else true) =
    !(c1 || c2 || c3 || c4 || c5 || c6) := by
  cases c1 <;> cases c2 <;> cases c3 <;> cases c4 <;> cases c5 <;> cases c6 <;> rfl

theorem if_chain4 (c1 c2 c3 c4 : Bool) :
    (if c1 then false else if c2 then false else if c3 then false else if c4 then false
      else true) = !(c1 || c2 || c3 || c4) := by
  cases c1 <;> cases c2 <;> cases c3 <;> cases c4 <;> rfl

set_option maxRecDepth 4000 in
theorem land_fe_byte : ∀ b, b < 256 →
    (((b &&& 0xfe) == 0xfc) = (b == 0xfc || b == 0xfd)) := by decide

set_option maxRecDepth 4000 in
theorem land_c0_byte : ∀ b, b < 256 →
    (((b &&& 0xc0) == 0x80) = (decide (0x80 ≤ b) && decide (b ≤ 0xbf))) := by decide

set_option maxRecDepth 4000 in
theorem land_f0_10_byte : ∀ b, b < 256 →
    (((b &&& 0xf0) == 0x10) = (decide (16 ≤ b) && decide (b ≤ 31))) := by decide

set_option maxRecDepth 4000 in
theorem land_f0_20_byte : ∀ b, b < 256 →
    (((b &&& 0xf0) == 0x20) = (decide (32 ≤ b) && decide (b ≤ 47))) := by decide

theorem oct_lt (b : List Nat) (hlen : b.length = 16) (hb : ∀ x ∈ b, x < 256) (i : Nat)
    (hi : i < 16) : oct b i < 256 := by
  have hib : i < b.length := by omega
  have hmem : b.getD i 0 ∈ b := by
    rw [List.getD_eq_getElem b 0 hib]
    exact List.getElem_mem hib
  exact hb _ hmem

theorem ipv4_routable_spec (o0 o1 o2 o3 : Nat) :
    is_routable_ipv4 o0 o1 o2 o3 = !(spec_nonroutable_ipv4 o0 o1 o2 o3) := by
  unfold is_routable_ipv4
  rw [if_chain6]
  refine congrArg (fun x => !x) ?_
  simp only [spec_nonroutable_ipv4, Bool.or_assoc]

theorem ipv6_routable_spec (b : List Nat) (hlen : b.length = 16) (hb : ∀ x ∈ b, x < 256) :
    is_routable_ipv6 b = !(spec_nonroutable_ipv6_core b || spec_linklocal_10 b) := by
  have h0 := oct_lt b hlen hb 0 (by norm_num)
  have h1 := oct_lt b hlen hb 1 (by norm_num)
  have h3 := oct_lt b hlen hb 3 (by norm_num)
  have e1 := land_fe_byte (oct b 0) h0
  have e2 := land_f0_10_byte (oct b 3) h3
  have e3 := land_c0_byte (oct b 1) h1
  have e4 := land_f0_20_byte (oct b 3) h3
  unfold is_routable_ipv6
  rw [e1, e2, e3, e4, if_chain4]
  refine congrArg (fun x => !x) ?_
  simp only [spec_nonroutable_ipv6_core, spec_linklocal_10]
  ac_rfl

/-- C6 (amended): the code's routability predicate agrees, on well-formed
addresses, with the claim's enumeration amended in exactly one range — the
IPv6 link-local rejection is `fe80::/10`, not `fe80::/64`.  All other
ranges (IPv4 list, IPv6 unspecified/loopback/fc00::/7/ORCHID, CJDNS
first-octet rule, Onion and I2P always routable) are as claimed. -/
theorem c6_routability (addr : AddrV2) (hwf : WFAddr addr) :
    is_routable_addr addr = spec_routable_amended addr := by
  cases addr with
  | ipv4 o0 o1 o2 o3 => exact ipv4_routable_spec o0 o1 o2 o3
  | ipv6 b =>
    obtain ⟨hlen, hb⟩ := hwf
    exact ipv6_routable_spec b hlen hb
  | cjdns b =>
    show (if oct b 0 == 0xFC then true else false) = (oct b 0 == 0xFC)
    cases h : (oct b 0 == 0xFC) <;> simp [h]
  | torV2 k => rfl
  | torV3 k => rfl
  | i2p k => rfl
  | unknown n p => rfl

/-- C6 counterexample: the code rejects `fe81::` (it checks `fe80::/10`),
while the claim as stated — link-local read as `fe80::/64` — calls it
routable. -/
theorem c6_routability_counterexample :
    WFAddr c6addr ∧ is_routable_addr c6addr = false ∧
      spec_routable_original c6addr = true :=
  ⟨by constructor <;> decide, by decide, by decide⟩

/-- C6 witness: the amended equivalence evaluated at concrete IPv4 and IPv6
addresses. -/
theorem c6_routability_witness :
    is_routable_addr (.ipv4 8 8 8 8) = spec_routable_amended (.ipv4 8 8 8 8) ∧
      is_routable_addr c6addr = spec_routable_amended c6addr :=
  ⟨c6_routability (.ipv4 8 8 8 8) ⟨by decide, by decide, by decide, by decide⟩,
    c6_routability c6addr ⟨by decide, by decide⟩⟩
